import Mathlib

/-! # Verification of the table-freeze layout engine

A shallow embedding of the span-aware table-freeze code
(`utils/span-helpers.js`, `utils/freeze-appliers.js`, `utils/dom-helpers.js`,
`utils/observers.js` and `table-freeze-controller.js` of the
`table_freeze_rows_columns_spans` variant, plus `utils/freeze-appliers.js`
of the `table_freeze_rows_columns_modular` variant), together with theorems
about the embedded definitions.

Conventions of the embedding:
* DOM cell elements are identified by natural-number ids (`CellId`); a table
  is its `thead`/`tbody` row lists (rows are lists of cell ids in document
  order) together with the cells' declared `rowspan`/`colspan` attributes.
* JS numbers that the code manipulates are modelled as `Int` (the code only
  ever adds, subtracts, compares, and takes `min`/`max`/`Math.floor` of
  them); `NaN`-producing non-numeric span attribute strings are outside the
  model (a span attribute is either absent or an integer).
* The sparse JS array `matrix` is a `List (List (Option CellId))`; a hole or
  an out-of-range read is `none` (falsy in JS).  Writes at negative column
  indices (reachable in JS only through negative `colspan` attributes,
  where the value becomes a non-index object property) are dropped.
* Rendered geometry (`getBoundingClientRect`, measured widths/heights) is
  injected through a `Geom` record, constant in the absence of DOM changes.
-/

namespace TableFreeze


abbrev CellId := Nat

/-- Declared span attributes of a cell: `none` models an absent (or empty)
attribute, `some n` an attribute whose string parses to the integer `n`. -/
structure CellAttrs where
  rowspanAttr : Option Int
  colspanAttr : Option Int
deriving DecidableEq, Repr

/-- A table row: its cells' ids in document order. -/
abbrev TRow := List CellId

/-- A table: `thead` (`table.tHead`, `none` when the section is absent),
`tbody` (`table.tBodies[0]`), and the cells' declared span attributes. -/
structure Table where
  thead : Option (List TRow)
  tbody : Option (List TRow)
  attrs : CellId → CellAttrs

/-- `table.rows`: header rows followed by body rows. -/
def Table.rows (t : Table) : List TRow :=
  t.thead.getD [] ++ t.tbody.getD []

/-- All cell ids of a table in document order. -/
def tableCells (t : Table) : List CellId :=
  t.rows.flatten

/-- `parseInt(cell.getAttribute(name) || '1', 10)`: an absent or empty
attribute defaults to `1`; a numeric attribute is its parsed value,
with no minimum applied. -/
def effSpan : Option Int → Int
  | none => 1
  | some n => n

/-! ## The logical cell matrix (`buildCellMatrix`) -/

/-- The sparse 2-dimensional JS array `matrix`. -/
abbrev Matrix := List (List (Option CellId))

/-- `matrix[r][c]` as a read: `none` for a hole, a missing row, or an
out-of-range (including negative) index. -/
def getPos (m : Matrix) (r : Int) (c : Int) : Option CellId :=
  if 0 ≤ r ∧ 0 ≤ c then (m.getD r.toNat []).getD c.toNat none else none

/-- Write `some v` at index `i` of a JS array row, padding holes with
`none` when the write extends the row. -/
def listSet (l : List (Option CellId)) (i : Nat) (v : CellId) :
    List (Option CellId) :=
  if i < l.length then l.set i (some v)
  else l ++ List.replicate (i - l.length) none ++ [some v]

/-- `matrix[r][c] = cell` for `0 ≤ c`; rows created on demand (holes become
empty rows, matching `row ? row.length : 0` reads of holes). -/
def matSet (m : Matrix) (r : Nat) (c : Nat) (v : CellId) : Matrix :=
  let row := m.getD r []
  let row' := listSet row c v
  if r < m.length then m.set r row'
  else m ++ List.replicate (r - m.length) [] ++ [row']

/-- A write `matrix[targetRow][targetCol] = cell` where the column index is
a JS number: negative indices become object properties invisible to the
array reads the algorithm performs, so they are dropped. -/
def matSetI (m : Matrix) (r : Nat) (c : Int) (v : CellId) : Matrix :=
  if 0 ≤ c then matSet m r c.toNat v else m

/-- `if (!matrix[rowIndex]) matrix[rowIndex] = []`. -/
def ensureRow (m : Matrix) (r : Nat) : Matrix :=
  if r < m.length then m
  else m ++ List.replicate (r - m.length) [] ++ [[]]

/-- `while (matrix[rowIndex][colIndex]) colIndex++`.  The loop stops at the
first unclaimed index; `fuel` bounds the recursion and is always passed a
value larger than the scanned row's length, which suffices because every
claimed index is below the row's length. -/
def skipOccupied (fuel : Nat) (m : Matrix) (r : Nat) (c : Int) : Int :=
  match fuel with
  | 0 => c
  | fuel + 1 =>
    if (getPos m r c).isSome then skipOccupied fuel m r (c + 1) else c

/-- Span-resolved placement of one cell:
`{row, col, rowspan, colspan}` as stored in `cellInfo`. -/
structure CellInfo where
  row : Nat
  col : Int
  rowspan : Int
  colspan : Int
deriving DecidableEq, Repr

/-- The `cellInfo` JS `Map` in insertion order. -/
abbrev InfoMap := List (CellId × CellInfo)

/-- `Map.prototype.get`. -/
def mapGet (m : InfoMap) (k : CellId) : Option CellInfo :=
  match m with
  | [] => none
  | p :: rest => if p.1 = k then some p.2 else mapGet rest k

/-- `Map.prototype.set`: update in place when the key is present
(keeping its position), append otherwise. -/
def mapSet (m : InfoMap) (k : CellId) (v : CellInfo) : InfoMap :=
  if m.any (fun p => p.1 = k) then
    m.map (fun p => if p.1 = k then (k, v) else p)
  else m ++ [(k, v)]

/-- Fill every position of the cell's rectangle
(`for r in [0,rowspan) for c in [0,colspan)`); a non-positive span makes
the corresponding loop empty. -/
def fillCell (m : Matrix) (v : CellId) (r0 : Nat) (c0 : Int)
    (rs cs : Int) : Matrix :=
  (List.range rs.toNat).foldl (fun m r =>
    (List.range cs.toNat).foldl (fun m (c : Nat) =>
      matSetI m (r0 + r) (c0 + (c : Int)) v) m) m

/-- Process one cell of a row: skip claimed positions, parse the spans,
record the cell info, fill the rectangle, advance the column cursor. -/
def placeCell (A : CellId → CellAttrs) (rowIndex : Nat)
    (st : Matrix × InfoMap × Int) (id : CellId) : Matrix × InfoMap × Int :=
  let m := st.1
  let info := st.2.1
  let fuel := (m.getD rowIndex []).length + 1
  let colIndex := skipOccupied fuel m rowIndex st.2.2
  let colspan := effSpan (A id).colspanAttr
  let rowspan := effSpan (A id).rowspanAttr
  let info := mapSet info id ⟨rowIndex, colIndex, rowspan, colspan⟩
  let m := fillCell m id rowIndex colIndex rowspan colspan
  (m, info, colIndex + colspan)

/-- Process one row: ensure the row exists, then place its cells left to
right starting from column cursor `0`. -/
def placeRow (A : CellId → CellAttrs) (st : Matrix × InfoMap)
    (p : Nat × TRow) : Matrix × InfoMap :=
  let m := ensureRow st.1 p.1
  let r := p.2.foldl (placeCell A p.1) (m, st.2, 0)
  (r.1, r.2.1)

/-- `Math.max(...matrix.map(row => row ? row.length : 0))`:
`none` models the `-Infinity` produced on an empty matrix. -/
def jsMaxCol (m : Matrix) : Option Nat :=
  match m with
  | [] => none
  | _ => some ((m.map List.length).foldr max 0)

/-- Result of `buildCellMatrix`. -/
structure MatrixData where
  matrix : Matrix
  cellInfo : InfoMap
  maxRow : Nat
  maxCol : Option Nat
deriving DecidableEq, Repr

/-- `buildCellMatrix(table)`: resolve spans into the logical grid,
processing rows top to bottom. -/
def buildCellMatrix (t : Table) : MatrixData :=
  let r := t.rows.enum.foldl (placeRow t.attrs) ([], [])
  { matrix := r.1, cellInfo := r.2, maxRow := r.1.length,
    maxCol := jsMaxCol r.1 }

/-! ## Freeze-zone resolution (`span-helpers.js`) -/

/-- `Set.prototype.add` on a list kept in insertion order. -/
def setAdd (s : List CellId) (id : CellId) : List CellId :=
  if id ∈ s then s else s ++ [id]

/-- `getCellsForColumnFreeze(matrixData, colFreeze)`. -/
def getCellsForColumnFreeze (md : MatrixData) (colFreeze : Int) :
    List CellId :=
  if colFreeze ≤ 0 then []
  else
    md.cellInfo.foldl (fun s p =>
      let col := p.2.col
      let cellEndCol := col + p.2.colspan - 1
      if col < colFreeze ∨ (col < colFreeze ∧ colFreeze ≤ cellEndCol) then
        setAdd s p.1
      else s) []

/-- `getCellsForRowFreeze(table, matrixData, rowFreeze)`: iterates the
first `min(rowFreeze, allRows.length)` rows of the combined
header+body sequence. -/
def getCellsForRowFreeze (t : Table) (md : MatrixData) (rowFreeze : Int) :
    List CellId :=
  let allRows := t.thead.getD [] ++ t.tbody.getD []
  if 0 < rowFreeze ∧ 0 < allRows.length then
    (List.range (min rowFreeze.toNat allRows.length)).foldl
      (fun s rowIndex =>
        (allRows.getD rowIndex []).foldl (fun s id =>
          match mapGet md.cellInfo id with
          | none => s
          | some info =>
            let cellEndRow : Int := (rowIndex : Int) + info.rowspan - 1
            if (rowIndex : Int) < rowFreeze ∨ cellEndRow < rowFreeze then
              setAdd s id
            else s) s) []
  else []

/-- `getColumnBoundaryIndex(matrixData, colFreeze)`. -/
def getColumnBoundaryIndex (md : MatrixData) (colFreeze : Int) : Int :=
  if colFreeze ≤ 0 then -1
  else
    md.cellInfo.foldl (fun acc p =>
      if p.2.col < colFreeze then
        max acc (min (p.2.col + p.2.colspan - 1) (colFreeze - 1))
      else acc) (colFreeze - 1)

/-- `getRowBoundaryIndex(table, matrixData, rowFreeze)`: iterates the body
rows, the row index being relative to `tbody`. -/
def getRowBoundaryIndex (t : Table) (md : MatrixData) (rowFreeze : Int) :
    Int :=
  if rowFreeze ≤ 0 then -1
  else
    match t.tbody with
    | none => -1
    | some bodyRows =>
      bodyRows.enum.foldl (fun acc p =>
        p.2.foldl (fun acc id =>
          match mapGet md.cellInfo id with
          | none => acc
          | some info =>
            if (p.1 : Int) < rowFreeze then
              max acc (min ((p.1 : Int) + info.rowspan - 1) (rowFreeze - 1))
            else acc) acc) (rowFreeze - 1)

/-! ## Spec-side comparators

Definitions that follow the specification's words (not the source), used
to compare the source's behaviour against the specified one. -/

/-- Following the spec's words: `BoundaryIndex` for columns is the maximum
over frozen cells (origin column `< colFreeze`) of
`origin + extent − 1`, clamped to at least `colFreeze − 1`. -/
def specColumnBoundaryIndex (md : MatrixData) (colFreeze : Int) : Int :=
  md.cellInfo.foldl (fun acc p =>
    if p.2.col < colFreeze then max acc (p.2.col + p.2.colspan - 1)
    else acc) (colFreeze - 1)

/-- Following the spec's words: frozen-by-row cells are all header-row
cells (headers implicitly frozen regardless of `rowFreeze`) plus the cells
of the first `rowFreeze` body rows. -/
def specRowFrozenCells (t : Table) (rowFreeze : Int) : List CellId :=
  (t.thead.getD []).flatten ++
    ((t.tbody.getD []).take rowFreeze.toNat).flatten

/-! ## Concrete tables used as inputs of closed theorems -/

/-- One row `[30, 31]` where cell `31` declares `colspan="3"`: with
`colFreeze = 2` the spanning cell starts at logical column
`colFreeze − 1 = 1` and ends at column `colFreeze + 1 = 3`. -/
def wideCellTable : Table :=
  { thead := none, tbody := some [[30, 31]],
    attrs := fun id => if id = 31 then ⟨none, some 3⟩ else ⟨none, none⟩ }

/-- One header row (cell `40`) and one body row (cell `41`), no spans. -/
def headerBodyTable : Table :=
  { thead := some [[40]], tbody := some [[41]],
    attrs := fun _ => ⟨none, none⟩ }

/-- A single cell `20` declaring `colspan="0"`. -/
def zeroSpanTable : Table :=
  { thead := none, tbody := some [[20]],
    attrs := fun id => if id = 20 then ⟨none, some 0⟩ else ⟨none, none⟩ }

/-- Overlapping explicit spans: row 0 is `[10, 11]` with cell `11`
declaring `rowspan="2"`, row 1 is `[12]` with cell `12` declaring
`colspan="2"`.  The rectangles of `11` and `12` both cover logical
position `(1,1)`; cell `11` writes it first, cell `12` afterwards. -/
def overlapTable : Table :=
  { thead := none, tbody := some [[10, 11], [12]],
    attrs := fun id =>
      if id = 11 then ⟨some 2, none⟩
      else if id = 12 then ⟨none, some 2⟩
      else ⟨none, none⟩ }

/-- The in-place-update branch of `Map.set`. -/
def mapReplace (m : InfoMap) (k : CellId) (v : CellInfo) : InfoMap :=
  m.map (fun p => if p.1 = k then (k, v) else p)

/-! ## Invariants of `buildCellMatrix`'s `cellInfo` -/

/-- Every stored entry's spans are exactly the parsed attribute values. -/
def SpanOK (A : CellId → CellAttrs) (info : InfoMap) : Prop :=
  ∀ id i, mapGet info id = some i →
    i.rowspan = effSpan (A id).rowspanAttr ∧
    i.colspan = effSpan (A id).colspanAttr

/-- The stored keys are pairwise distinct. -/
def KeysNodup (m : InfoMap) : Prop := (m.map (fun p => p.1)).Nodup

/-! ## Matrix write semantics -/

/-- Nat-indexed matrix read; agrees with `getPos` on cast naturals. -/
def getPosN (m : Matrix) (r c : Nat) : Option CellId :=
  (m.getD r []).getD c none

/-! ## C4: conflict resolution in `buildCellMatrix` -/

/-- The recorded rectangle of a `cellInfo` entry covers logical position
`(r, c)`. -/
def covers (v : CellInfo) (r c : Nat) : Prop :=
  (v.row : Int) ≤ (r : Int) ∧ (r : Int) < (v.row : Int) + v.rowspan ∧
    v.col ≤ (c : Int) ∧ (c : Int) < v.col + v.colspan

instance (v : CellInfo) (r c : Nat) : Decidable (covers v r c) := by
  unfold covers
  infer_instance

/-- The cells whose recorded rectangle covers logical position `(r, c)`,
in `cellInfo` insertion (i.e. processing) order. -/
def coveringCells (info : InfoMap) (r c : Nat) : List CellId :=
  (info.filter (fun p => decide (covers p.2 r c))).map (fun p => p.1)

/-! ## DOM style state (`dom-helpers.js`, `freeze-appliers.js`) -/

/-- A `data-col-freeze` / `data-row-freeze` attribute value: absent (or
empty, both falsy), a numeric string parsing to an integer, or a string
`Number(...)` turns into `NaN`/`Infinity`. -/
inductive AttrVal
  | absent
  | num (n : Int)
  | junk
deriving DecidableEq, Repr

/-- `getFreezeCount(table, attrName)`: falsy, non-finite and non-positive
values give `0`; positive values are floored. -/
def getFreezeCount : AttrVal → Nat
  | .absent => 0
  | .junk => 0
  | .num n => if 0 < n then n.toNat else 0

/-- Inline style and class list of one cell.  `left`/`top` are `none` for
the empty string and `some v` for `"${v}px"`. -/
structure CellStyle where
  position : String
  left : Option Int
  top : Option Int
  classes : List String
deriving DecidableEq, Repr

attribute [ext] CellStyle

abbrev Styles := CellId → CellStyle

/-- The mutable DOM state of one managed table: its cells' styles, its
`data-*-freeze` attributes, and the `--freeze-bg-color` property. -/
structure DomState where
  styles : Styles
  colAttr : AttrVal
  rowAttr : AttrVal
  freezeBg : Bool

/-- `classList.add`. -/
def classAdd (cl : List String) (c : String) : List String :=
  if c ∈ cl then cl else cl ++ [c]

/-- The marker classes cleared by the spans variant's
`clearFreezeStyles`. -/
def markerClasses : List String :=
  ["freeze-col", "freeze-row", "freeze-both",
   "freeze-boundary-col", "freeze-boundary-row"]

/-- The cell matches the `.freeze-col, .freeze-row, .freeze-both,
.freeze-boundary-col, .freeze-boundary-row` selector. -/
def hasMarker (st : CellStyle) : Prop := ∃ c ∈ st.classes, c ∈ markerClasses

instance (st : CellStyle) : Decidable (hasMarker st) := by
  unfold hasMarker
  infer_instance

/-- The complement of the marker selector. -/
def nonMarker (c : String) : Bool := decide (¬ c ∈ markerClasses)

/-- Per-cell effect of `clearFreezeStyles`: remove the five marker
classes, clear the three positioning styles. -/
def clearCellStyle (st : CellStyle) : CellStyle :=
  { position := "", left := none, top := none,
    classes := st.classes.filter nonMarker }

/-- `clearFreezeStyles(table)` on the cell styles: every cell of the
table matching the marker selector is reset. -/
def clearStyles (t : Table) (σ : Styles) : Styles := fun id =>
  if id ∈ tableCells t ∧ hasMarker (σ id) then clearCellStyle (σ id)
  else σ id

/-- `clearFreezeStyles(table)`: reset marked cells and remove the
`--freeze-bg-color` property. -/
def clearFreezeStyles (t : Table) (d : DomState) : DomState :=
  { d with styles := clearStyles t d.styles, freezeBg := false }

/-- Injected measurement results (`getBoundingClientRect`,
`measureColumnWidths`): constant while the DOM does not change.
`rowHeights` lists the rendered heights of the combined header+body rows
in order. -/
structure Geom where
  colWidths : List Int
  rowHeights : List Int
  stickyOffset : Int
  containerTop : Int
  containerBottom : Int
  tableTop : Int
  hasContainer : Bool

/-- The `leftOffsets` accumulation:
`for i < n: leftOffsets[i] = acc; acc += widths[i] || 0`. -/
def prefixOffsets (widths : List Int) (n : Nat) : List Int :=
  ((List.range n).foldl (fun (p : List Int × Int) i =>
    (p.1 ++ [p.2], p.2 + widths.getD i 0)) ([], 0)).1

/-- `leftOffsets[i] || 0` under a JS (possibly negative) index. -/
def lookupOffset (l : List Int) (i : Int) : Int :=
  if 0 ≤ i then l.getD i.toNat 0 else 0

/-- `leftOffsets[i] !== undefined`. -/
def offsetDefined (l : List Int) (i : Int) : Prop :=
  0 ≤ i ∧ i.toNat < l.length

instance (l : List Int) (i : Int) : Decidable (offsetDefined l i) := by
  unfold offsetDefined
  infer_instance

/-- Update one cell's style. -/
def updStyle (σ : Styles) (id : CellId) (f : CellStyle → CellStyle) :
    Styles :=
  fun j => if j = id then f (σ j) else σ j

/-- Per-cell effect of the spans variant's `applyColumnFreeze` on a
frozen cell: sticky positioning, the column's cumulative left offset, the
`freeze-col` marker, and the boundary marker when the cell's end column
is the boundary or its origin is the last frozen column. -/
def colCellUpdate (offs : List Int) (boundaryCol : Int)
    (actualColFreeze : Nat) (info : CellInfo) (st : CellStyle) :
    CellStyle :=
  let st1 : CellStyle :=
    { st with
      position := "sticky",
      left := some (lookupOffset offs info.col),
      classes := classAdd st.classes "freeze-col" }
  if info.col + info.colspan - 1 = boundaryCol ∨
      info.col = (actualColFreeze : Int) - 1 then
    { st1 with classes := classAdd st1.classes "freeze-boundary-col" }
  else st1

/-- `applyColumnFreeze(table, colFreeze)` of the spans variant
(`freeze-appliers.js`). -/
def applyColumnFreeze (t : Table) (g : Geom) (colFreeze : Int)
    (σ : Styles) : Styles :=
  if colFreeze ≤ 0 then σ
  else
    let md := buildCellMatrix t
    if md.maxCol = some 0 then σ
    else
      let widths := g.colWidths
      if widths.length = 0 then σ
      else
        let actualColFreeze : Nat := min colFreeze.toNat widths.length
        let offs := prefixOffsets widths actualColFreeze
        let frozen := getCellsForColumnFreeze md actualColFreeze
        let boundaryCol := getColumnBoundaryIndex md actualColFreeze
        frozen.foldl (fun σ id =>
          match mapGet md.cellInfo id with
          | none => σ
          | some info =>
            updStyle σ id (colCellUpdate offs boundaryCol actualColFreeze
              info)) σ

/-- Per-cell effect of the spans variant's `applyRowFreeze` on a frozen
cell in combined row `i`: sticky positioning, the accumulated top offset,
the `freeze-row` marker; the left offset only for cells inside the frozen
columns with a defined offset; the boundary marker when the cell's end
row is the boundary or `i` is the last frozen row. -/
def rowCellUpdate (info? : Option CellInfo) (colFreeze : Int)
    (offs : List Int) (boundaryRow rowFreeze : Int) (i : Nat)
    (topAcc : Int) (st : CellStyle) : CellStyle :=
  let st1 : CellStyle :=
    { st with
      position := "sticky",
      top := some topAcc,
      classes := classAdd st.classes "freeze-row" }
  let st2 : CellStyle :=
    match info? with
    | some info =>
      if 0 < colFreeze ∧ info.col < colFreeze ∧
          offsetDefined offs info.col then
        { st1 with left := some (lookupOffset offs info.col) }
      else st1
    | none => st1
  match info? with
  | some info =>
    if (i : Int) + info.rowspan - 1 = boundaryRow ∨
        (i : Int) = rowFreeze - 1 then
      { st2 with classes := classAdd st2.classes "freeze-boundary-row" }
    else st2
  | none => st2

/-- `applyRowFreeze(table, rowFreeze, colFreeze)` of the spans variant:
iterates the first `min(rowFreeze, allRows.length)` combined rows,
accumulating the sticky `top` offset, and writes `left` only on frozen
cells inside the frozen columns (corner cells). -/
def applyRowFreeze (t : Table) (g : Geom) (rowFreeze colFreeze : Int)
    (σ : Styles) : Styles :=
  if t.tbody = none ∨ rowFreeze ≤ 0 then σ
  else
      let md := buildCellMatrix t
      let allRows := t.thead.getD [] ++ t.tbody.getD []
      let n := min rowFreeze.toNat allRows.length
      let frozenRowHeights :=
        (List.range n).map (fun i => max 0 (g.rowHeights.getD i 0))
      let frozen := getCellsForRowFreeze t md rowFreeze
      let boundaryRow := getRowBoundaryIndex t md rowFreeze
      let widths := g.colWidths
      let nLeft : Nat :=
        if colFreeze ≤ 0 then 0 else min colFreeze.toNat widths.length
      let offs := prefixOffsets widths nLeft
      ((List.range n).foldl (fun (p : Styles × Int) i =>
        ((allRows.getD i []).foldl (fun σ id =>
          if id ∈ frozen then
            updStyle σ id (rowCellUpdate (mapGet md.cellInfo id) colFreeze
              offs boundaryRow rowFreeze i p.2)
          else σ) p.1,
          p.2 + frozenRowHeights.getD i 0)) (σ, 0)).1

/-- `applyCornerPriority(table, colFreeze)` of the spans variant: every
table cell carrying both `freeze-col` and `freeze-row` loses both and
gains `freeze-both`.  (The source also builds the cell matrix and the
frozen-column set but never uses them.) -/
def applyCornerPriority (t : Table) (colFreeze : Int) (σ : Styles) :
    Styles :=
  if colFreeze ≤ 0 then σ
  else fun id =>
    if id ∈ tableCells t ∧ "freeze-col" ∈ (σ id).classes ∧
        "freeze-row" ∈ (σ id).classes then
      { σ id with
        classes :=
          classAdd
            ((σ id).classes.filter
              (fun c => ¬ (c = "freeze-col" ∨ c = "freeze-row")))
            "freeze-both" }
    else σ id

/-- `applyFreezeToTable(table)` of the spans controller: clear previous
positioning state, read and normalize the freeze counts (the `dataset`
writes store them back on the table), then apply row freeze, column
freeze and corner priority. -/
def applyFreezeToTable (t : Table) (g : Geom) (d : DomState) : DomState :=
  let d1 := clearFreezeStyles t d
  let colFreeze : Nat := getFreezeCount d1.colAttr
  let rowFreeze : Nat := getFreezeCount d1.rowAttr
  { colAttr := .num colFreeze,
    rowAttr := .num rowFreeze,
    freezeBg := d1.freezeBg,
    styles := applyCornerPriority t colFreeze
      (applyColumnFreeze t g colFreeze
        (applyRowFreeze t g rowFreeze colFreeze d1.styles)) }

/-! ## Shape lemmas for the appliers -/

/-- The early-return guard of `applyColumnFreeze`. -/
def colFreezeGuard (t : Table) (g : Geom) (cf : Int) : Prop :=
  cf ≤ 0 ∨ (buildCellMatrix t).maxCol = some 0 ∨ g.colWidths.length = 0

instance (t : Table) (g : Geom) (cf : Int) :
    Decidable (colFreezeGuard t g cf) := by
  unfold colFreezeGuard
  infer_instance

/-- `min(colFreeze, widths.length)`. -/
def actualColFreezeOf (g : Geom) (cf : Int) : Nat :=
  min cf.toNat g.colWidths.length

/-- The set of cells `applyColumnFreeze` actually styles. -/
def colFrozenApplied (t : Table) (g : Geom) (cf : Int) : List CellId :=
  if colFreezeGuard t g cf then []
  else getCellsForColumnFreeze (buildCellMatrix t) (actualColFreezeOf g cf)

/-- The early-return guard of `applyRowFreeze`. -/
def rowFreezeGuard (t : Table) (rf : Int) : Prop :=
  t.tbody = none ∨ rf ≤ 0

instance (t : Table) (rf : Int) : Decidable (rowFreezeGuard t rf) := by
  unfold rowFreezeGuard
  infer_instance

/-- The set of cells `applyRowFreeze` actually styles. -/
def rowFrozenApplied (t : Table) (rf : Int) : List CellId :=
  if rowFreezeGuard t rf then []
  else getCellsForRowFreeze t (buildCellMatrix t) rf

/-- The combined header+body row list. -/
def allRowsOf (t : Table) : List TRow :=
  t.thead.getD [] ++ t.tbody.getD []

/-- The number of combined rows `applyRowFreeze` iterates. -/
def frozenRowCount (t : Table) (rf : Int) : Nat :=
  min rf.toNat (allRowsOf t).length

/-- A single-cell table used to exercise the idempotence claim. -/
def staleLeftTable : Table :=
  { thead := none, tbody := some [[60]], attrs := fun _ => ⟨none, none⟩ }

/-- Measurements for the single-cell table. -/
def g0 : Geom :=
  { colWidths := [50], rowHeights := [30], stickyOffset := 0,
    containerTop := 0, containerBottom := 100, tableTop := 0,
    hasContainer := true }

/-- A DOM state whose cell carries a pre-existing inline
`left: 9px` not written by the component. -/
def staleDom : DomState :=
  { styles := fun _ =>
      { position := "", left := some 9, top := none, classes := [] },
    colAttr := .num 0, rowAttr := .num 1, freezeBg := false }

/-- A DOM state with pristine inline positioning styles. -/
def pristineDom : DomState :=
  { styles := fun _ =>
      { position := "", left := none, top := none, classes := [] },
    colAttr := .num 1, rowAttr := .num 1, freezeBg := true }

/-! ## The modular variant's freeze appliers
(`table_freeze_rows_columns_modular/utils/freeze-appliers.js`) -/

namespace Modular

/-- `applyColumnFreeze(table, colFreeze)` of the modular variant: raw
child index below `min(colFreeze, widths.length)` decides freezing; adds
`freeze-col` and the left offset (no `position` write). -/
def applyColumnFreeze (t : Table) (g : Geom) (colFreeze : Int)
    (σ : Styles) : Styles :=
  if colFreeze ≤ 0 then σ
  else if g.colWidths.length = 0 then σ
  else
    let acf := min colFreeze.toNat g.colWidths.length
    let offs := prefixOffsets g.colWidths acf
    (allRowsOf t).foldl (fun σ row =>
      (List.range (min acf row.length)).foldl (fun σ col =>
        updStyle σ (row.getD col 0) (fun st =>
          let st1 : CellStyle :=
            { st with
              left := some (offs.getD col 0),
              classes := classAdd st.classes "freeze-col" }
          if col = acf - 1 then
            { st1 with
              classes := classAdd st1.classes "freeze-boundary-col" }
          else st1)) σ) σ

/-- `applyRowFreeze(table, rowFreeze)` of the modular variant: every
header row is frozen unconditionally, then the first `rowFreeze` body
rows. -/
def applyRowFreeze (t : Table) (headerHeights bodyHeights : List Int)
    (rowFreeze : Int) (σ : Styles) : Styles :=
  let σ1 :=
    match t.thead with
    | none => σ
    | some hrows =>
      ((hrows.enum).foldl (fun (p : Styles × Int) rp =>
        (rp.2.foldl (fun σ (id : CellId) =>
          updStyle σ id (fun st =>
            { st with
              top := some p.2,
              classes := classAdd st.classes "freeze-row" })) p.1,
          p.2 + headerHeights.getD rp.1 0)) (σ, 0)).1
  if rowFreeze ≤ 0 ∨ t.tbody = none then σ1
  else
    let headerTotal := headerHeights.foldl (fun a b => a + b) 0
    ((((t.tbody.getD []).take rowFreeze.toNat).enum.foldl
      (fun (p : Styles × Int) rp =>
        (rp.2.foldl (fun σ (id : CellId) =>
          updStyle σ id (fun st =>
            let st1 : CellStyle :=
              { st with
                top := some p.2,
                classes := classAdd st.classes "freeze-row" }
            if (rp.1 : Int) = rowFreeze - 1 then
              { st1 with
                classes := classAdd st1.classes "freeze-boundary-row" }
            else st1)) p.1,
          p.2 + bodyHeights.getD rp.1 0)) (σ1, headerTotal))).1

/-- `applyCornerPriority(table, colFreeze)` of the modular variant: a
frozen-column cell that carries `freeze-row` gains `freeze-corner`;
neither individual marker is removed. -/
def applyCornerPriority (t : Table) (colFreeze : Int) (σ : Styles) :
    Styles :=
  if colFreeze ≤ 0 then σ
  else
    (allRowsOf t).foldl (fun σ row =>
      (List.range (min colFreeze.toNat row.length)).foldl (fun σ col =>
        if "freeze-row" ∈ (σ (row.getD col 0)).classes then
          updStyle σ (row.getD col 0) (fun st =>
            { st with classes := classAdd st.classes "freeze-corner" })
        else σ) σ) σ

end Modular

/-- A one-header-row, one-body-row table for the corner counterexample. -/
def cornerTableM : Table :=
  { thead := some [[70]], tbody := some [[71]],
    attrs := fun _ => ⟨none, none⟩ }

/-- All cells start with no inline styles and no classes. -/
def emptyStyles : Styles := fun _ =>
  { position := "", left := none, top := none, classes := [] }

/-- A two-row table whose header cell is frozen on both axes. -/
def bothTable : Table :=
  { thead := some [[80]], tbody := some [[81]],
    attrs := fun _ => ⟨none, none⟩ }

/-- A pristine DOM state requesting one frozen row and one frozen
column. -/
def bothDom : DomState :=
  { styles := emptyStyles, colAttr := .num 1, rowAttr := .num 2,
    freezeBg := false }

/-! ## The spans controller's listener state
(`table_freeze_rows_columns_spans/table-freeze-controller.js`) -/

/-- The controller-instance state of `TableFreezeController`: destroyed
and initialized flags, the three pending animation-frame handles
(`0` = none), whether each observer object exists, the tracked table
collections (tables as opaque ids), and the two window listeners. -/
structure Controller where
  isDestroyed : Bool
  isInitialized : Bool
  refreshRaf : Nat
  scrollRaf : Nat
  mutationRaf : Nat
  resizeObserver : Bool
  intersectionObserver : Bool
  mutationObserver : Bool
  observedTables : List Nat
  tablesInStickyZone : List Nat
  scrollListenerAttached : Bool
  resizeListenerAttached : Bool
deriving DecidableEq, Repr

/-- One `IntersectionObserver` entry. -/
structure Entry where
  target : Nat
  isIntersecting : Bool
deriving DecidableEq, Repr

/-- `Set.prototype.delete`. -/
def setRemove (s : List Nat) (x : Nat) : List Nat :=
  s.filter (fun y => decide (y ≠ x))

/-- One iteration of the `entries.forEach` loop of `_onIntersection`:
entries whose table is no longer observed or no longer in the document
are skipped; otherwise the sticky-zone set is updated from
`isIntersecting`. -/
def processEntry (inDom : Nat → Bool) (c : Controller) (e : Entry) :
    Controller :=
  if e.target ∈ c.observedTables ∧ inDom e.target = true then
    if e.isIntersecting then
      { c with
        tablesInStickyZone := setAdd c.tablesInStickyZone e.target }
    else
      { c with
        tablesInStickyZone := setRemove c.tablesInStickyZone e.target }
  else c

/-- `_attachScrollListener()`. -/
def attachScrollListener (c : Controller) : Controller :=
  if c.scrollListenerAttached then c
  else { c with scrollListenerAttached := true }

/-- `_detachScrollListener()`: detach, then cancel a pending scroll
frame. -/
def detachScrollListener (c : Controller) : Controller :=
  if c.scrollListenerAttached then
    if c.scrollRaf ≠ 0 then
      { c with scrollListenerAttached := false, scrollRaf := 0 }
    else { c with scrollListenerAttached := false }
  else c

/-- The effect of `handlePageScroll()` on the controller's own state:
with a non-empty sticky zone it iterates a snapshot of the zone and
deletes every table no longer in the document (its per-table style
writes live in `handlePageScrollTable`); with an empty zone it iterates
the document's tables and deletes nothing from the empty set. -/
def handlePageScrollZone (inDom : Nat → Bool) (c : Controller) :
    Controller :=
  if c.tablesInStickyZone ≠ [] then
    { c with
      tablesInStickyZone :=
        c.tablesInStickyZone.foldl
          (fun z t => if inDom t then z else setRemove z t)
          c.tablesInStickyZone }
  else c

/-- `_onIntersection(entries)`: process the entries, then attach the
scroll listener and run `handlePageScroll` when the sticky zone is
non-empty, else detach it. -/
def onIntersection (inDom : Nat → Bool) (entries : List Entry)
    (c : Controller) : Controller :=
  let c1 := entries.foldl (processEntry inDom) c
  if c1.tablesInStickyZone ≠ [] then
    handlePageScrollZone inDom (attachScrollListener c1)
  else detachScrollListener c1

/-- A controller observing table 1, which sits in the sticky zone with
the scroll listener attached. -/
def departedController : Controller :=
  { isDestroyed := false, isInitialized := true, refreshRaf := 0,
    scrollRaf := 0, mutationRaf := 0, resizeObserver := true,
    intersectionObserver := true, mutationObserver := true,
    observedTables := [1], tablesInStickyZone := [1],
    scrollListenerAttached := true, resizeListenerAttached := true }

/-- A controller observing table 2, currently with an empty sticky zone
and no scroll listener. -/
def liveController : Controller :=
  { isDestroyed := false, isInitialized := true, refreshRaf := 0,
    scrollRaf := 0, mutationRaf := 0, resizeObserver := true,
    intersectionObserver := true, mutationObserver := true,
    observedTables := [2], tablesInStickyZone := [],
    scrollListenerAttached := false, resizeListenerAttached := true }

/-! ## `destroy()` and `init()` of the spans controller -/

/-- `destroy()`: an already-destroyed instance returns at once;
otherwise every pending frame is cancelled, both window listeners are
removed, the three observers are disconnected and nulled, the tracking
collections are cleared, every freeze-table in the document has its
freeze styles cleared, and the initialization flag is reset.  The
document is modelled as the list of freeze-class tables with their DOM
state. -/
def destroy (c : Controller) (doc : List (Table × DomState)) :
    Controller × List (Table × DomState) :=
  if c.isDestroyed then (c, doc)
  else
    ({ isDestroyed := true, isInitialized := false,
       refreshRaf := 0, scrollRaf := 0, mutationRaf := 0,
       resizeObserver := false, intersectionObserver := false,
       mutationObserver := false, observedTables := [],
       tablesInStickyZone := [], scrollListenerAttached := false,
       resizeListenerAttached := false },
     doc.map (fun p => (p.1, clearFreezeStyles p.1 p.2)))

/-- `init()`: a destroyed instance logs and returns `false` unchanged;
so does an already-initialized one.  The success path — option
validation, initial refresh, wiring the listeners and the three
observers — is abstracted as the continuation `proceed`; the theorems
below hold for every such continuation. -/
def init (c : Controller) (proceed : Controller → Bool × Controller) :
    Bool × Controller :=
  if c.isDestroyed then (false, c)
  else if c.isInitialized then (false, c)
  else proceed c

/-! ## The per-table body of `handlePageScroll()` -/

/-- The per-table body of `handlePageScroll()` of the spans controller:
no container or no rows returns at once; inside the sticky activation
band with a positive row freeze it re-tops — writing only to cells whose
inline position is `sticky` with a non-empty inline top — the combined
header rows plus the first `rowFreeze` body rows, accumulating the
sticky offset with each row's measured height; otherwise it falls back
to a plain `applyRowFreeze`.  (The `document.contains` pruning is
`handlePageScrollZone`.) -/
def handlePageScrollTable (t : Table) (g : Geom) (d : DomState) :
    DomState :=
  if g.hasContainer = false then d
  else if t.thead = none ∧ t.tbody = none then d
  else
    let rowFreeze : Nat := getFreezeCount d.rowAttr
    if (g.containerTop ≤ g.stickyOffset ∧
        g.stickyOffset < g.containerBottom) ∧ 0 < rowFreeze then
      let stickyTop : Int := max 0 (g.stickyOffset - g.tableTop)
      let allRows := t.thead.getD [] ++ (t.tbody.getD []).take rowFreeze
      { d with
        styles :=
          ((allRows.enum).foldl (fun (p : Styles × Int) rp =>
            (rp.2.foldl (fun σ (id : CellId) =>
              if (σ id).position = "sticky" ∧ (σ id).top ≠ none then
                updStyle σ id (fun st => { st with top := some p.2 })
              else σ) p.1,
              p.2 + g.rowHeights.getD rp.1 0)) (d.styles, stickyTop)).1 }
    else
      { d with
        styles :=
          applyRowFreeze t g (getFreezeCount d.rowAttr : Int)
            (getFreezeCount d.colAttr : Int) d.styles }


/-! ## Theorems -/

/-! ## Generic fold-invariant helpers -/

/-- An invariant preserved by every step of a left fold holds of the
fold's result. -/
theorem foldl_invariant {α β : Type} (P : β → Prop) (step : β → α → β)
    (l : List α) (b : β) (hb : P b)
    (h : ∀ b a, a ∈ l → P b → P (step b a)) : P (l.foldl step b) := by
  induction l generalizing b with
  | nil => exact hb
  | cons x xs ih =>
    exact ih (step b x) (h b x (List.mem_cons_self x xs) hb)
      (fun b a ha hb => h b a (List.mem_cons_of_mem x ha) hb)

/-- A reflexive transitive relation that every fold step bears to its
input relates a fold's input to its result. -/
theorem foldl_rel {α β : Type} (R : β → β → Prop) (step : β → α → β)
    (l : List α) (b : β) (hrefl : ∀ x, R x x)
    (htrans : ∀ x y z, R x y → R y z → R x z)
    (h : ∀ b a, a ∈ l → R b (step b a)) : R b (l.foldl step b) := by
  induction l generalizing b with
  | nil => exact hrefl b
  | cons x xs ih =>
    exact htrans _ _ _ (h b x (List.mem_cons_self x xs))
      (ih (step b x) (fun b a ha => h b a (List.mem_cons_of_mem x ha)))

/-! ## Lemmas about the JS `Map` and `Set` embeddings -/

theorem mapGet_append (m l : InfoMap) (k : CellId) :
    mapGet (m ++ l) k =
      match mapGet m k with
      | some v => some v
      | none => mapGet l k := by
  induction m with
  | nil => rfl
  | cons a rest ih =>
    by_cases ha : a.1 = k <;> simp [mapGet, ha, ih]

theorem mapSet_eq (m : InfoMap) (k : CellId) (v : CellInfo) :
    mapSet m k v =
      if m.any (fun p => p.1 = k) then mapReplace m k v
      else m ++ [(k, v)] := rfl

theorem mapGet_mapReplace_ne (m : InfoMap) (k k' : CellId) (v : CellInfo)
    (h : k' ≠ k) : mapGet (mapReplace m k v) k' = mapGet m k' := by
  induction m with
  | nil => rfl
  | cons a rest ih =>
    by_cases ha : a.1 = k
    · have h1 : mapGet (mapReplace (a :: rest) k v) k' =
          mapGet (mapReplace rest k v) k' := by
        simp only [mapReplace, List.map_cons, if_pos ha, mapGet]
        rw [if_neg (show ¬ ((k, v).1 = k') from fun hh => h hh.symm)]
      have h2 : mapGet (a :: rest) k' = mapGet rest k' := by
        simp only [mapGet]
        rw [if_neg (fun hh => h (ha ▸ hh).symm)]
      rw [h1, ih, h2]
    · have h1 : mapGet (mapReplace (a :: rest) k v) k' =
          if a.1 = k' then some a.2 else mapGet (mapReplace rest k v) k' := by
        simp only [mapReplace, List.map_cons, if_neg ha, mapGet]
      rw [h1, ih]
      simp only [mapGet]

theorem mapGet_mapReplace_self (m : InfoMap) (k : CellId) (v : CellInfo)
    (h : m.any (fun p => p.1 = k)) :
    mapGet (mapReplace m k v) k = some v := by
  induction m with
  | nil => simp at h
  | cons a rest ih =>
    by_cases ha : a.1 = k
    · simp [mapReplace, ha, mapGet]
    · simp only [List.any_cons, decide_eq_true_eq, Bool.or_eq_true,
        ha, false_or] at h
      simp only [mapReplace, List.map_cons, if_neg ha, mapGet, if_neg ha]
      exact ih h

theorem no_key_of_not_any (m : InfoMap) (k : CellId)
    (h : ¬ m.any (fun p => p.1 = k)) : ∀ p ∈ m, p.1 ≠ k := by
  intro p hp
  simp only [List.any_eq_true, decide_eq_true_eq, not_exists, not_and] at h
  exact h p hp

theorem mapGet_eq_none_of_no_key (m : InfoMap) (k : CellId)
    (h : ∀ p ∈ m, p.1 ≠ k) : mapGet m k = none := by
  induction m with
  | nil => rfl
  | cons a rest ih =>
    simp only [mapGet, if_neg (h a (List.mem_cons_self a rest))]
    exact ih (fun p hp => h p (List.mem_cons_of_mem a hp))

/-- `Map.set` followed by `Map.get` of the same key yields the stored
value; other keys are unaffected. -/
theorem mapGet_mapSet (m : InfoMap) (k : CellId) (v : CellInfo)
    (k' : CellId) :
    mapGet (mapSet m k v) k' = if k' = k then some v else mapGet m k' := by
  rw [mapSet_eq]
  by_cases hany : m.any (fun p => p.1 = k)
  · rw [if_pos hany]
    by_cases hk : k' = k
    · subst hk; rw [if_pos rfl]; exact mapGet_mapReplace_self m k' v hany
    · rw [if_neg hk]; exact mapGet_mapReplace_ne m k k' v hk
  · rw [if_neg hany, mapGet_append]
    have hnone := mapGet_eq_none_of_no_key m k (no_key_of_not_any m k hany)
    by_cases hk : k' = k
    · subst hk; rw [hnone, if_pos rfl]; simp [mapGet]
    · rw [if_neg hk]
      cases hm : mapGet m k' with
      | none => simp [mapGet, if_neg (fun hh : k = k' => hk hh.symm)]
      | some w => rfl

theorem mem_setAdd (s : List CellId) (a id : CellId) :
    id ∈ setAdd s a ↔ id ∈ s ∨ id = a := by
  unfold setAdd
  by_cases h : a ∈ s
  · rw [if_pos h]
    constructor
    · exact Or.inl
    · rintro (hs | rfl)
      · exact hs
      · exact h
  · rw [if_neg h]
    simp

/-- Membership in the guarded `Set.add` folds used by the freeze-cell
resolvers. -/
theorem mem_foldl_setAdd {α : Type} (key : α → CellId)
    (cond : α → Prop) [DecidablePred cond] (l : List α)
    (s : List CellId) (id : CellId) :
    id ∈ l.foldl (fun s p => if cond p then setAdd s (key p) else s) s ↔
      id ∈ s ∨ ∃ p ∈ l, key p = id ∧ cond p := by
  induction l generalizing s with
  | nil => simp
  | cons a rest ih =>
    simp only [List.foldl_cons]
    rw [ih]
    by_cases hc : cond a
    · rw [if_pos hc]
      rw [mem_setAdd]
      constructor
      · rintro ((hs | he) | hr)
        · exact Or.inl hs
        · exact Or.inr ⟨a, List.mem_cons_self a rest, he.symm, hc⟩
        · obtain ⟨p, hp, hpe, hpc⟩ := hr
          exact Or.inr ⟨p, List.mem_cons_of_mem a hp, hpe, hpc⟩
      · rintro (hs | ⟨p, hp, hpe, hpc⟩)
        · exact Or.inl (Or.inl hs)
        · rcases List.mem_cons.mp hp with rfl | hp'
          · exact Or.inl (Or.inr hpe.symm)
          · exact Or.inr ⟨p, hp', hpe, hpc⟩
    · rw [if_neg hc]
      constructor
      · rintro (hs | ⟨p, hp, hpe, hpc⟩)
        · exact Or.inl hs
        · exact Or.inr ⟨p, List.mem_cons_of_mem a hp, hpe, hpc⟩
      · rintro (hs | ⟨p, hp, hpe, hpc⟩)
        · exact Or.inl hs
        · rcases List.mem_cons.mp hp with rfl | hp'
          · exact absurd hpc hc
          · exact Or.inr ⟨p, hp', hpe, hpc⟩

theorem keysNodup_mapSet (m : InfoMap) (k : CellId) (v : CellInfo)
    (h : KeysNodup m) : KeysNodup (mapSet m k v) := by
  rw [mapSet_eq]
  by_cases hany : m.any (fun p => p.1 = k)
  · rw [if_pos hany]
    have : (mapReplace m k v).map (fun p => p.1) =
        m.map (fun p => p.1) := by
      simp only [mapReplace, List.map_map]
      apply List.map_congr_left
      intro p _
      by_cases hp : p.1 = k <;> simp [hp]
    unfold KeysNodup
    rw [this]
    exact h
  · rw [if_neg hany]
    unfold KeysNodup
    rw [List.map_append]
    simp only [List.map_cons, List.map_nil]
    rw [List.nodup_append]
    refine ⟨h, List.nodup_singleton k, ?_⟩
    intro x hx hx2
    rw [List.mem_singleton] at hx2
    obtain ⟨p, hp, hpk⟩ := List.mem_map.mp hx
    exact no_key_of_not_any m k hany p hp (hpk.trans hx2)

theorem mapGet_eq_some_of_mem (m : InfoMap) (hm : KeysNodup m)
    (k : CellId) (i : CellInfo) (h : (k, i) ∈ m) :
    mapGet m k = some i := by
  induction m with
  | nil => simp at h
  | cons a rest ih =>
    have hm' : (a.1 :: rest.map (fun p => p.1)).Nodup := hm
    rcases List.mem_cons.mp h with rfl | h'
    · simp [mapGet]
    · have hk : k ∈ rest.map (fun p => p.1) :=
        List.mem_map.mpr ⟨(k, i), h', rfl⟩
      have hne : a.1 ≠ k := by
        intro he
        have hnot := (List.nodup_cons.mp hm').1
        rw [he] at hnot
        exact hnot hk
      simp only [mapGet, if_neg hne]
      exact ih (List.nodup_cons.mp hm').2 h'

theorem mem_of_mapGet_eq_some (m : InfoMap) (k : CellId) (i : CellInfo)
    (h : mapGet m k = some i) : (k, i) ∈ m := by
  induction m with
  | nil => simp [mapGet] at h
  | cons a rest ih =>
    by_cases ha : a.1 = k
    · simp only [mapGet, if_pos ha] at h
      cases h
      exact ha ▸ List.mem_cons_self a rest
    · simp only [mapGet, if_neg ha] at h
      exact List.mem_cons_of_mem a (ih h)

/-- The two `cellInfo` invariants hold after `buildCellMatrix`. -/
theorem buildCellMatrix_info_invariants (t : Table) :
    SpanOK t.attrs (buildCellMatrix t).cellInfo ∧
      KeysNodup (buildCellMatrix t).cellInfo := by
  have main :
      ∀ st : Matrix × InfoMap, SpanOK t.attrs st.2 → KeysNodup st.2 →
        SpanOK t.attrs (t.rows.enum.foldl (placeRow t.attrs) st).2 ∧
        KeysNodup (t.rows.enum.foldl (placeRow t.attrs) st).2 := by
    intro st h1 h2
    have := foldl_invariant
      (P := fun (st : Matrix × InfoMap) =>
        SpanOK t.attrs st.2 ∧ KeysNodup st.2)
      (placeRow t.attrs) t.rows.enum st ⟨h1, h2⟩ ?_
    · exact this
    · rintro st ⟨ri, row⟩ _ ⟨hs, hn⟩
      unfold placeRow
      have := foldl_invariant
        (P := fun (st : Matrix × InfoMap × Int) =>
          SpanOK t.attrs st.2.1 ∧ KeysNodup st.2.1)
        (placeCell t.attrs ri) row (ensureRow st.1 ri, st.2, 0) ⟨hs, hn⟩ ?_
      · exact this
      · rintro st id _ ⟨hs, hn⟩
        unfold placeCell
        constructor
        · intro id' i hget
          rw [mapGet_mapSet] at hget
          by_cases hk : id' = id
          · subst hk
            rw [if_pos rfl] at hget
            cases hget
            exact ⟨rfl, rfl⟩
          · rw [if_neg hk] at hget
            exact hs id' i hget
        · exact keysNodup_mapSet _ _ _ hn
  have base := main ([], []) (fun id i h => by simp [mapGet] at h)
    (by simp [KeysNodup])
  exact base

theorem getPos_natCast (m : Matrix) (r c : Nat) :
    getPos m r c = getPosN m r c := by
  simp [getPos, getPosN]

theorem getElem?_append_ite {α : Type} (l r : List α) (i : Nat) :
    (l ++ r)[i]? = if i < l.length then l[i]? else r[i - l.length]? := by
  split_ifs with h
  · exact List.getElem?_append_left h
  · exact List.getElem?_append_right (by omega)

theorem getD_listSet (row : List (Option CellId)) (c0 : Nat) (v : CellId)
    (c : Nat) :
    (listSet row c0 v).getD c none =
      if c = c0 then some v else row.getD c none := by
  unfold listSet
  by_cases h : c0 < row.length
  · rw [if_pos h, List.getD_eq_getElem?_getD, List.getElem?_set]
    by_cases hc : c = c0
    · subst hc
      rw [if_pos rfl, if_pos rfl, if_pos h]
      rfl
    · rw [if_neg (fun hh : c0 = c => hc hh.symm), if_neg hc,
        List.getD_eq_getElem?_getD]
  · rw [if_neg h, List.append_assoc, List.getD_eq_getElem?_getD,
      getElem?_append_ite]
    by_cases hlt : c < row.length
    · rw [if_pos hlt, if_neg (by omega), List.getD_eq_getElem?_getD]
    · rw [if_neg hlt, getElem?_append_ite, List.length_replicate]
      by_cases h2 : c - row.length < c0 - row.length
      · rw [if_pos h2, List.getElem?_replicate, if_pos h2, if_neg (by omega),
          List.getD_eq_getElem?_getD, List.getElem?_eq_none (by omega)]
        rfl
      · rw [if_neg h2]
        by_cases h3 : c = c0
        · rw [show c - row.length - (c0 - row.length) = 0 by omega,
            if_pos h3]
          rfl
        · rw [if_neg h3,
            show ([some v] : List (Option CellId))[c - row.length -
              (c0 - row.length)]? = none from
              List.getElem?_eq_none (by simp; omega),
            List.getD_eq_getElem?_getD, List.getElem?_eq_none (by omega)]

/-- Row-level read of a row update. -/
theorem getD_set_row (m : Matrix) (i : Nat) (row : List (Option CellId))
    (r : Nat) (h : i < m.length) :
    (m.set i row).getD r [] = if r = i then row else m.getD r [] := by
  rw [List.getD_eq_getElem?_getD, List.getElem?_set]
  by_cases hr : r = i
  · rw [if_pos hr.symm, if_pos h, if_pos hr]
    rfl
  · rw [if_neg (fun hh : i = r => hr hh.symm), if_neg hr,
      List.getD_eq_getElem?_getD]

/-- Row-level read of appended row lists. -/
theorem getD_append_rows (m m' : Matrix) (r : Nat) :
    (m ++ m').getD r [] =
      if r < m.length then m.getD r [] else m'.getD (r - m.length) [] := by
  rw [List.getD_eq_getElem?_getD, getElem?_append_ite]
  by_cases h : r < m.length
  · rw [if_pos h, if_pos h, List.getD_eq_getElem?_getD]
  · rw [if_neg h, if_neg h, List.getD_eq_getElem?_getD]

theorem getD_replicate_rows (n r : Nat) :
    (List.replicate n ([] : List (Option CellId))).getD r [] = [] := by
  rw [List.getD_eq_getElem?_getD, List.getElem?_replicate]
  by_cases h : r < n
  · rw [if_pos h]
    rfl
  · rw [if_neg h]
    rfl

theorem getD_singleton_row (row : List (Option CellId)) (r : Nat) :
    ([row] : Matrix).getD r [] = if r = 0 then row else [] := by
  by_cases h : r = 0
  · subst h
    rw [if_pos rfl]
    rfl
  · rw [if_neg h, List.getD_eq_getElem?_getD,
      List.getElem?_eq_none (by simp; omega)]
    rfl

theorem getD_out_of_range (m : Matrix) (r : Nat) (h : ¬ r < m.length) :
    m.getD r [] = [] := by
  rw [List.getD_eq_getElem?_getD, List.getElem?_eq_none (by omega)]
  rfl

theorem getPosN_matSet (m : Matrix) (r0 c0 : Nat) (v : CellId)
    (r c : Nat) :
    getPosN (matSet m r0 c0 v) r c =
      if r = r0 ∧ c = c0 then some v else getPosN m r c := by
  unfold matSet getPosN
  by_cases h : r0 < m.length
  · rw [if_pos h, getD_set_row m r0 _ r h]
    by_cases hr : r = r0
    · rw [if_pos hr, getD_listSet, hr]
      by_cases hc : c = c0
      · rw [if_pos hc, if_pos (And.intro rfl hc)]
      · rw [if_neg hc, if_neg (fun hh => hc hh.2)]
    · rw [if_neg hr, if_neg (fun hh : r = r0 ∧ c = c0 => hr hh.1)]
  · rw [if_neg h, List.append_assoc, getD_append_rows, getD_append_rows,
      List.length_replicate, getD_replicate_rows, getD_singleton_row]
    by_cases hlt : r < m.length
    · rw [if_pos hlt, if_neg (by omega)]
    · rw [if_neg hlt, getD_out_of_range m r hlt]
      by_cases h2 : r - m.length < r0 - m.length
      · rw [if_pos h2, if_neg (by omega)]
      · rw [if_neg h2]
        by_cases h3 : r = r0
        · rw [if_pos (by omega), getD_listSet, getD_out_of_range m r0 h]
          by_cases hc : c = c0
          · rw [if_pos hc, if_pos (And.intro h3 hc)]
          · rw [if_neg hc, if_neg (fun hh => hc hh.2)]
        · rw [if_neg (by omega), if_neg (fun hh : r = r0 ∧ c = c0 => h3 hh.1)]

theorem getPosN_matSetI (m : Matrix) (r0 : Nat) (ci : Int) (v : CellId)
    (r c : Nat) :
    getPosN (matSetI m r0 ci v) r c =
      if r = r0 ∧ (c : Int) = ci then some v else getPosN m r c := by
  unfold matSetI
  by_cases h : 0 ≤ ci
  · rw [if_pos h, getPosN_matSet]
    by_cases hc : r = r0 ∧ c = ci.toNat
    · rw [if_pos hc, if_pos (And.intro hc.1 (by omega))]
    · rw [if_neg hc, if_neg (fun hh : r = r0 ∧ (c : Int) = ci =>
        hc (And.intro hh.1 (by omega)))]
  · rw [if_neg h]
    have hne : ¬ (r = r0 ∧ (c : Int) = ci) := by
      rintro ⟨_, h2⟩
      omega
    rw [if_neg hne]

theorem getPosN_ensureRow (m : Matrix) (r0 : Nat) (r c : Nat) :
    getPosN (ensureRow m r0) r c = getPosN m r c := by
  unfold ensureRow getPosN
  by_cases h : r0 < m.length
  · rw [if_pos h]
  · rw [if_neg h, List.append_assoc, getD_append_rows, getD_append_rows,
      List.length_replicate, getD_replicate_rows, getD_singleton_row]
    by_cases hlt : r < m.length
    · rw [if_pos hlt]
    · rw [if_neg hlt, getD_out_of_range m r hlt]
      by_cases h2 : r - m.length < r0 - m.length
      · rw [if_pos h2]
      · rw [if_neg h2]
        by_cases h3 : r - m.length - (r0 - m.length) = 0
        · rw [if_pos h3]
        · rw [if_neg h3]

/-- Reading the matrix after filling a cell's rectangle: positions inside
the rectangle (at non-negative logical coordinates) hold the new cell,
all others are untouched. -/
theorem getPosN_fillCell (m : Matrix) (v : CellId) (r0 : Nat) (c0 : Int)
    (rs cs : Int) (r c : Nat) :
    getPosN (fillCell m v r0 c0 rs cs) r c =
      if (r0 : Int) ≤ r ∧ (r : Int) < r0 + rs ∧
          c0 ≤ (c : Int) ∧ (c : Int) < c0 + cs then some v
      else getPosN m r c := by
  have hrow : ∀ (n : Nat) (m : Matrix) (rr : Nat),
      getPosN ((List.range n).foldl
        (fun m (c : Nat) => matSetI m rr (c0 + (c : Int)) v) m) r c =
      if r = rr ∧ c0 ≤ (c : Int) ∧ (c : Int) < c0 + n then some v
      else getPosN m r c := by
    intro n
    induction n with
    | zero =>
      intro m rr
      simp only [List.range_zero, List.foldl_nil]
      rw [if_neg (by omega)]
    | succ k ih =>
      intro m rr
      have hr : List.range (k + 1) = List.range k ++ [k] := by
        rw [List.range_succ]
      rw [hr, List.foldl_append]
      simp only [List.foldl_cons, List.foldl_nil]
      rw [getPosN_matSetI, ih]
      split_ifs <;> first | rfl | (exfalso; omega)
  unfold fillCell
  have houter : ∀ (n : Nat) (m : Matrix),
      getPosN ((List.range n).foldl (fun m rr =>
        (List.range cs.toNat).foldl
          (fun m (c : Nat) => matSetI m (r0 + rr) (c0 + (c : Int)) v) m) m)
        r c =
      if r0 ≤ r ∧ r < r0 + n ∧ c0 ≤ (c : Int) ∧
          (c : Int) < c0 + cs.toNat then some v
      else getPosN m r c := by
    intro n
    induction n with
    | zero =>
      intro m
      simp only [List.range_zero, List.foldl_nil]
      rw [if_neg (by omega)]
    | succ k ih =>
      intro m
      have hr : List.range (k + 1) = List.range k ++ [k] := by
        rw [List.range_succ]
      rw [hr, List.foldl_append]
      simp only [List.foldl_cons, List.foldl_nil]
      rw [hrow cs.toNat _ (r0 + k), ih]
      split_ifs <;> first | rfl | (exfalso; omega)
  rw [houter rs.toNat m]
  split_ifs <;> first | rfl | (exfalso; omega)

theorem coveringCells_append_single (info : InfoMap) (id : CellId)
    (v : CellInfo) (r c : Nat) :
    coveringCells (info ++ [(id, v)]) r c =
      coveringCells info r c ++ (if covers v r c then [id] else []) := by
  unfold coveringCells
  rw [List.filter_append, List.map_append]
  congr 1
  by_cases h : covers v r c
  · rw [if_pos h]
    simp [List.filter_cons, h]
  · rw [if_neg h]
    simp [List.filter_cons, h]

theorem mapSet_eq_append (m : InfoMap) (k : CellId) (v : CellInfo)
    (h : ∀ p ∈ m, p.1 ≠ k) : mapSet m k v = m ++ [(k, v)] := by
  rw [mapSet_eq, if_neg]
  simp only [List.any_eq_true, decide_eq_true_eq, not_exists, not_and]
  exact h

/-- Invariant carried through cell placement: the stored keys are exactly
the processed cells, and every matrix position holds the most recently
processed cell whose rectangle covers it. -/
theorem placeCells_inv (A : CellId → CellAttrs) (ri : Nat)
    (cells : List CellId) :
    ∀ (done : List CellId) (st : Matrix × InfoMap × Int),
      (done ++ cells).Nodup →
      st.2.1.map (fun p => p.1) = done →
      (∀ r c : Nat, getPosN st.1 r c = (coveringCells st.2.1 r c).getLast?) →
      ((cells.foldl (placeCell A ri) st).2.1.map (fun p => p.1) =
          done ++ cells ∧
        ∀ r c : Nat,
          getPosN (cells.foldl (placeCell A ri) st).1 r c =
            (coveringCells
              (cells.foldl (placeCell A ri) st).2.1 r c).getLast?) := by
  induction cells with
  | nil =>
    intro done st _ hkeys hmat
    simpa using ⟨hkeys, hmat⟩
  | cons a rest ih =>
    intro done st hnd hkeys hmat
    simp only [List.foldl_cons]
    have ha_not : a ∉ done := fun hmem =>
      List.disjoint_of_nodup_append hnd hmem (List.mem_cons_self a rest)
    have hnokey : ∀ p ∈ st.2.1, p.1 ≠ a := by
      intro p hp hpk
      exact ha_not (hkeys ▸ List.mem_map.mpr ⟨p, hp, hpk⟩)
    obtain ⟨m, info, colIdx⟩ := st
    simp only at hnokey hkeys hmat
    have hstep : placeCell A ri (m, info, colIdx) a =
        (fillCell m a ri
            (skipOccupied ((m.getD ri []).length + 1) m ri colIdx)
            (effSpan (A a).rowspanAttr) (effSpan (A a).colspanAttr),
          info ++ [(a, ⟨ri,
            skipOccupied ((m.getD ri []).length + 1) m ri colIdx,
            effSpan (A a).rowspanAttr, effSpan (A a).colspanAttr⟩)],
          skipOccupied ((m.getD ri []).length + 1) m ri colIdx +
            effSpan (A a).colspanAttr) := by
      unfold placeCell
      simp only
      rw [mapSet_eq_append _ _ _ hnokey]
    have hassoc : done ++ a :: rest = (done ++ [a]) ++ rest := by simp
    rw [hstep, hassoc]
    apply ih (done ++ [a])
    · rw [← hassoc]
      exact hnd
    · simp only [List.map_append, hkeys, List.map_cons, List.map_nil]
    · intro r c
      simp only
      rw [getPosN_fillCell, coveringCells_append_single]
      by_cases h : covers ⟨ri,
          skipOccupied ((m.getD ri []).length + 1) m ri colIdx,
          effSpan (A a).rowspanAttr, effSpan (A a).colspanAttr⟩ r c
      · rw [if_pos h, List.getLast?_concat]
        split_ifs with h2
        · rfl
        · exact absurd h h2
      · rw [if_neg h, List.append_nil]
        split_ifs with h2
        · exact absurd h2 h
        · exact hmat r c

/-- The same invariant carried through whole rows. -/
theorem placeRows_inv (A : CellId → CellAttrs)
    (rows : List (Nat × TRow)) :
    ∀ (done : List CellId) (st : Matrix × InfoMap),
      (done ++ (rows.map (fun p => p.2)).flatten).Nodup →
      st.2.map (fun p => p.1) = done →
      (∀ r c : Nat, getPosN st.1 r c = (coveringCells st.2 r c).getLast?) →
      ((rows.foldl (placeRow A) st).2.map (fun p => p.1) =
          done ++ (rows.map (fun p => p.2)).flatten ∧
        ∀ r c : Nat,
          getPosN (rows.foldl (placeRow A) st).1 r c =
            (coveringCells
              (rows.foldl (placeRow A) st).2 r c).getLast?) := by
  induction rows with
  | nil =>
    intro done st _ hkeys hmat
    simpa using ⟨hkeys, hmat⟩
  | cons rp rest ih =>
    intro done st hnd hkeys hmat
    simp only [List.foldl_cons]
    have hnd1 : (done ++ rp.2).Nodup := by
      refine List.Nodup.sublist ?_ hnd
      rw [List.map_cons, List.flatten_cons, ← List.append_assoc]
      exact List.sublist_append_left _ _
    have hinner := placeCells_inv A rp.1 rp.2 done
      (ensureRow st.1 rp.1, st.2, 0) hnd1 hkeys
      (fun r c => (getPosN_ensureRow st.1 rp.1 r c).trans (hmat r c))
    have hrow : placeRow A st rp =
        ((rp.2.foldl (placeCell A rp.1) (ensureRow st.1 rp.1, st.2, 0)).1,
          (rp.2.foldl (placeCell A rp.1)
            (ensureRow st.1 rp.1, st.2, 0)).2.1) := rfl
    rw [hrow]
    have hres := ih (done ++ rp.2)
      ((rp.2.foldl (placeCell A rp.1) (ensureRow st.1 rp.1, st.2, 0)).1,
        (rp.2.foldl (placeCell A rp.1)
          (ensureRow st.1 rp.1, st.2, 0)).2.1)
      (by rw [List.map_cons, List.flatten_cons, ← List.append_assoc] at hnd
          exact hnd)
      hinner.1 hinner.2
    rw [List.map_cons, List.flatten_cons, ← List.append_assoc]
    exact hres

/-- C4 counterexample: the claim states the owner of every contested
position is the first cell whose rectangle covered it ("a position
already claimed by a cell from an earlier write is skipped by later
conflicting writes, never overwritten").  In `overlapTable`, position
`(1,1)` is covered first by cell `11` (written while row 0 was processed)
and later by cell `12`; the final owner is `12`, not `11`. -/
theorem buildCellMatrix_not_first_write_wins :
    coveringCells (buildCellMatrix overlapTable).cellInfo 1 1 = [11, 12] ∧
      getPos (buildCellMatrix overlapTable).matrix 1 1 = some 12 := by
  decide

/-- C4 (amended): `buildCellMatrix` is a total function (never throws)
and resolves every contested logical position by last-cell-wins: for a
table whose cell elements are distinct, the owner of each position is the
most recently processed cell (in document order) whose recorded rectangle
covers it — later conflicting writes overwrite earlier ones. -/
theorem buildCellMatrix_last_write_wins (t : Table)
    (hnd : (tableCells t).Nodup) (r c : Nat) :
    getPos (buildCellMatrix t).matrix r c =
      (coveringCells (buildCellMatrix t).cellInfo r c).getLast? := by
  rw [getPos_natCast]
  have hflat : (t.rows.enum.map (fun p => p.2)).flatten =
      t.rows.flatten := by
    rw [show t.rows.enum.map (fun p => p.2) = t.rows from
      List.enum_map_snd t.rows]
  have h := placeRows_inv t.attrs t.rows.enum [] ([], [])
    (by rw [List.nil_append, hflat]; exact hnd) rfl
    (fun r c => rfl)
  exact h.2 r c

/-- Witness for C4's amended theorem at the concrete overlapping table. -/
theorem buildCellMatrix_last_write_wins_witness :
    (tableCells overlapTable).Nodup ∧
      getPos (buildCellMatrix overlapTable).matrix 0 1 =
        (coveringCells
          (buildCellMatrix overlapTable).cellInfo 0 1).getLast? :=
  ⟨by decide, buildCellMatrix_last_write_wins overlapTable (by decide) 0 1⟩

/-- C5 (amended): every entry stored in `cellInfo` carries exactly the
parsed span values: `1` when the attribute is absent, otherwise the
declared integer, with no minimum applied (so non-positive declared
values are stored as-is). -/
theorem cellInfo_spans_are_parsed_values (t : Table) (id : CellId)
    (info : CellInfo)
    (h : mapGet (buildCellMatrix t).cellInfo id = some info) :
    info.rowspan = effSpan (t.attrs id).rowspanAttr ∧
      info.colspan = effSpan (t.attrs id).colspanAttr :=
  (buildCellMatrix_info_invariants t).1 id info h

/-- Witness for C5's amended theorem at a concrete table. -/
theorem cellInfo_spans_are_parsed_values_witness :
    mapGet (buildCellMatrix zeroSpanTable).cellInfo 20 =
        some (⟨0, 0, 1, 0⟩ : CellInfo) ∧
      (0 : Int) = effSpan (zeroSpanTable.attrs 20).colspanAttr := by
  have hget : mapGet (buildCellMatrix zeroSpanTable).cellInfo 20 =
      some (⟨0, 0, 1, 0⟩ : CellInfo) := by decide
  exact ⟨hget,
    (cellInfo_spans_are_parsed_values zeroSpanTable 20 ⟨0, 0, 1, 0⟩
      hget).2⟩

/-! ## C3: frozen-by-column iff origin column is inside the zone -/

/-- C3: for `colFreeze ≤ 0` the frozen-by-column set is empty, and for
`colFreeze ≥ 1` a cell is in `getCellsForColumnFreeze`'s result exactly
when its span-resolved origin column is strictly below `colFreeze`,
however far its `colspan` extends. -/
theorem getCellsForColumnFreeze_iff_origin_lt (t : Table)
    (colFreeze : Int) (id : CellId) :
    (colFreeze ≤ 0 →
        getCellsForColumnFreeze (buildCellMatrix t) colFreeze = []) ∧
      (1 ≤ colFreeze →
        (id ∈ getCellsForColumnFreeze (buildCellMatrix t) colFreeze ↔
          ∃ i, mapGet (buildCellMatrix t).cellInfo id = some i ∧
            i.col < colFreeze)) := by
  constructor
  · intro h
    unfold getCellsForColumnFreeze
    rw [if_pos h]
  · intro h
    have hneg : ¬ colFreeze ≤ 0 := by omega
    unfold getCellsForColumnFreeze
    rw [if_neg hneg]
    have hmem := mem_foldl_setAdd (fun p : CellId × CellInfo => p.1)
      (fun p : CellId × CellInfo =>
        p.2.col < colFreeze ∨
          (p.2.col < colFreeze ∧ colFreeze ≤ p.2.col + p.2.colspan - 1))
      (buildCellMatrix t).cellInfo [] id
    have htarget : (id ∈ ([] : List CellId) ∨
        ∃ p ∈ (buildCellMatrix t).cellInfo, p.1 = id ∧
          (p.2.col < colFreeze ∨
            (p.2.col < colFreeze ∧
              colFreeze ≤ p.2.col + p.2.colspan - 1))) ↔
        ∃ i, mapGet (buildCellMatrix t).cellInfo id = some i ∧
          i.col < colFreeze := by
      simp only [List.not_mem_nil, false_or]
      constructor
      · rintro ⟨p, hp, rfl, hc⟩
        have hcol : p.2.col < colFreeze := by
          rcases hc with hc | ⟨hc, _⟩ <;> exact hc
        exact ⟨p.2,
          mapGet_eq_some_of_mem _ (buildCellMatrix_info_invariants t).2 _ _
            hp, hcol⟩
      · rintro ⟨i, hget, hcol⟩
        exact ⟨(id, i), mem_of_mapGet_eq_some _ _ _ hget, rfl, Or.inl hcol⟩
    exact hmem.trans htarget

/-- Witness for C3's theorem on a concrete table with a spanning cell. -/
theorem getCellsForColumnFreeze_iff_origin_lt_witness :
    getCellsForColumnFreeze (buildCellMatrix wideCellTable) 0 = [] ∧
      (31 ∈ getCellsForColumnFreeze (buildCellMatrix wideCellTable) 2 ↔
        ∃ i, mapGet (buildCellMatrix wideCellTable).cellInfo 31 =
            some i ∧ i.col < 2) :=
  ⟨(getCellsForColumnFreeze_iff_origin_lt wideCellTable 0 31).1
      (by norm_num),
    (getCellsForColumnFreeze_iff_origin_lt wideCellTable 2 31).2
      (by norm_num)⟩

/-! ## C1: the boundary index ignores spans -/

/-- C1: the claim states that for a cell with `colspan=3` whose origin
column is `colFreeze − 1` the column boundary index is `colFreeze + 1`
(the cell's end column, here `3`), i.e. the maximum over frozen cells of
`origin + extent − 1`.  The code's `Math.min(cellEndCol, colFreeze - 1)`
clamp makes the span extension inert: `getColumnBoundaryIndex` evaluates
to `colFreeze − 1 = 1` on this table, while the spec-side definition
evaluates to `3`. -/
theorem getColumnBoundaryIndex_clamps_spans :
    getColumnBoundaryIndex (buildCellMatrix wideCellTable) 2 = 1 ∧
      specColumnBoundaryIndex (buildCellMatrix wideCellTable) 2 = 3 ∧
      31 ∈ getCellsForColumnFreeze (buildCellMatrix wideCellTable) 2 := by
  decide

/-! ## C2: header rows are not implicitly frozen -/

/-- C2: the claim (and the function's own documentation, "For header rows:
always freeze") states that header cells are frozen for every
`rowFreeze ≥ 0` and that `rowFreeze` counts body rows.  The code freezes
only the first `min(rowFreeze, allRows.length)` rows of the combined
header+body sequence: with `rowFreeze = 0` nothing is frozen (the header
cell `40` is not), and with `rowFreeze = 1` only the header row is frozen
(the first body row, cell `41`, is not), while the spec-side definition
yields `[40]` and `[40, 41]` respectively. -/
theorem getCellsForRowFreeze_drops_headers :
    getCellsForRowFreeze headerBodyTable (buildCellMatrix headerBodyTable)
        0 = [] ∧
      getCellsForRowFreeze headerBodyTable (buildCellMatrix headerBodyTable)
        1 = [40] ∧
      specRowFrozenCells headerBodyTable 0 = [40] ∧
      specRowFrozenCells headerBodyTable 1 = [40, 41] := by
  decide

/-! ## C5: spans are stored unclamped -/

/-- C5 counterexample: the claim states every entry stored in `cellInfo`
has `rowspan ≥ 1` and `colspan ≥ 1` (non-positive declared values clamped
to 1).  The cell declaring `colspan="0"` is stored with `colspan = 0`. -/
theorem buildCellMatrix_stores_nonpositive_span :
    ¬ ∀ p ∈ (buildCellMatrix zeroSpanTable).cellInfo,
        1 ≤ p.2.rowspan ∧ 1 ≤ p.2.colspan := by
  decide

/-! ## Lemmas about classes and the per-cell updates -/

theorem mem_classAdd (cl : List String) (c x : String) :
    x ∈ classAdd cl c ↔ x ∈ cl ∨ x = c := by
  unfold classAdd
  by_cases h : c ∈ cl
  · rw [if_pos h]
    constructor
    · exact Or.inl
    · rintro (hs | rfl)
      · exact hs
      · exact h
  · rw [if_neg h]
    simp

theorem subset_classAdd (cl : List String) (c : String) :
    cl ⊆ classAdd cl c := by
  intro x hx
  exact (mem_classAdd cl c x).mpr (Or.inl hx)

theorem filter_nonMarker_classAdd (cl : List String) (c : String)
    (hc : c ∈ markerClasses) :
    (classAdd cl c).filter nonMarker = cl.filter nonMarker := by
  unfold classAdd
  by_cases h : c ∈ cl
  · rw [if_pos h]
  · rw [if_neg h, List.filter_append]
    have : List.filter nonMarker [c] = [] := by
      simp [nonMarker, hc]
    rw [this, List.append_nil]

theorem filter_nonMarker_idem (cl : List String) :
    (cl.filter nonMarker).filter nonMarker = cl.filter nonMarker := by
  rw [List.filter_filter]
  exact List.filter_congr (fun a _ => by cases h : nonMarker a <;> simp [h])

/-- Class membership after the column-freeze per-cell update. -/
theorem colCellUpdate_mem (offs : List Int) (bCol : Int) (acf : Nat)
    (info : CellInfo) (st : CellStyle) (x : String) :
    x ∈ (colCellUpdate offs bCol acf info st).classes ↔
      x ∈ st.classes ∨ x = "freeze-col" ∨
        ((info.col + info.colspan - 1 = bCol ∨
            info.col = (acf : Int) - 1) ∧ x = "freeze-boundary-col") := by
  unfold colCellUpdate
  by_cases h : info.col + info.colspan - 1 = bCol ∨ info.col = (acf : Int) - 1
  · rw [if_pos h]
    simp only [mem_classAdd]
    tauto
  · rw [if_neg h]
    simp only [mem_classAdd]
    tauto

theorem colCellUpdate_filter_nonMarker (offs : List Int) (bCol : Int)
    (acf : Nat) (info : CellInfo) (st : CellStyle) :
    (colCellUpdate offs bCol acf info st).classes.filter nonMarker =
      st.classes.filter nonMarker := by
  unfold colCellUpdate
  by_cases h : info.col + info.colspan - 1 = bCol ∨ info.col = (acf : Int) - 1
  · rw [if_pos h]
    simp only
    rw [filter_nonMarker_classAdd _ _ (by simp [markerClasses]),
      filter_nonMarker_classAdd _ _ (by simp [markerClasses])]
  · rw [if_neg h]
    simp only
    rw [filter_nonMarker_classAdd _ _ (by simp [markerClasses])]

/-- The class list produced by the row-freeze per-cell update. -/
theorem rowCellUpdate_classes (info? : Option CellInfo) (colF : Int)
    (offs : List Int) (bRow rF : Int) (i : Nat) (topAcc : Int)
    (st : CellStyle) :
    (rowCellUpdate info? colF offs bRow rF i topAcc st).classes =
      if ∃ info, info? = some info ∧
          ((i : Int) + info.rowspan - 1 = bRow ∨ (i : Int) = rF - 1) then
        classAdd (classAdd st.classes "freeze-row") "freeze-boundary-row"
      else classAdd st.classes "freeze-row" := by
  unfold rowCellUpdate
  cases info? with
  | none =>
    rw [if_neg]
    rintro ⟨info, hinfo, _⟩
    cases hinfo
  | some info =>
    dsimp only
    by_cases hb : (i : Int) + info.rowspan - 1 = bRow ∨ (i : Int) = rF - 1
    · have hex : ∃ info', some info = some info' ∧
          ((i : Int) + info'.rowspan - 1 = bRow ∨ (i : Int) = rF - 1) :=
        ⟨info, rfl, hb⟩
      rw [if_pos hb, if_pos hex]
      by_cases hl : 0 < colF ∧ info.col < colF ∧ offsetDefined offs info.col
      · rw [if_pos hl]
      · rw [if_neg hl]
    · have hne : ¬ ∃ info', some info = some info' ∧
          ((i : Int) + info'.rowspan - 1 = bRow ∨ (i : Int) = rF - 1) := by
        rintro ⟨info', hinfo', hb'⟩
        cases hinfo'
        exact hb hb'
      rw [if_neg hb, if_neg hne]
      by_cases hl : 0 < colF ∧ info.col < colF ∧ offsetDefined offs info.col
      · rw [if_pos hl]
      · rw [if_neg hl]

/-- Class membership after the row-freeze per-cell update. -/
theorem rowCellUpdate_mem (info? : Option CellInfo) (colF : Int)
    (offs : List Int) (bRow rF : Int) (i : Nat) (topAcc : Int)
    (st : CellStyle) (x : String) :
    x ∈ (rowCellUpdate info? colF offs bRow rF i topAcc st).classes ↔
      x ∈ st.classes ∨ x = "freeze-row" ∨
        ((∃ info, info? = some info ∧
            ((i : Int) + info.rowspan - 1 = bRow ∨ (i : Int) = rF - 1)) ∧
          x = "freeze-boundary-row") := by
  rw [rowCellUpdate_classes]
  by_cases hb : ∃ info, info? = some info ∧
      ((i : Int) + info.rowspan - 1 = bRow ∨ (i : Int) = rF - 1)
  · rw [if_pos hb]
    simp only [mem_classAdd]
    constructor
    · rintro ((h | h) | h)
      · exact Or.inl h
      · exact Or.inr (Or.inl h)
      · exact Or.inr (Or.inr ⟨hb, h⟩)
    · rintro (h | h | ⟨_, h⟩)
      · exact Or.inl (Or.inl h)
      · exact Or.inl (Or.inr h)
      · exact Or.inr h
  · rw [if_neg hb]
    simp only [mem_classAdd]
    constructor
    · rintro (h | h)
      · exact Or.inl h
      · exact Or.inr (Or.inl h)
    · rintro (h | h | ⟨hex, _⟩)
      · exact Or.inl h
      · exact Or.inr h
      · exact absurd hex hb

theorem rowCellUpdate_filter_nonMarker (info? : Option CellInfo)
    (colF : Int) (offs : List Int) (bRow rF : Int) (i : Nat)
    (topAcc : Int) (st : CellStyle) :
    (rowCellUpdate info? colF offs bRow rF i topAcc
        st).classes.filter nonMarker =
      st.classes.filter nonMarker := by
  rw [rowCellUpdate_classes]
  by_cases hb : ∃ info, info? = some info ∧
      ((i : Int) + info.rowspan - 1 = bRow ∨ (i : Int) = rF - 1)
  · rw [if_pos hb,
      filter_nonMarker_classAdd _ _ (by simp [markerClasses]),
      filter_nonMarker_classAdd _ _ (by simp [markerClasses])]
  · rw [if_neg hb,
      filter_nonMarker_classAdd _ _ (by simp [markerClasses])]

theorem applyColumnFreeze_eq (t : Table) (g : Geom) (cf : Int)
    (σ : Styles) :
    applyColumnFreeze t g cf σ =
      if colFreezeGuard t g cf then σ
      else
        (getCellsForColumnFreeze (buildCellMatrix t)
            (actualColFreezeOf g cf)).foldl
          (fun σ id =>
            match mapGet (buildCellMatrix t).cellInfo id with
            | none => σ
            | some info =>
              updStyle σ id (colCellUpdate
                (prefixOffsets g.colWidths (actualColFreezeOf g cf))
                (getColumnBoundaryIndex (buildCellMatrix t)
                  (actualColFreezeOf g cf))
                (actualColFreezeOf g cf) info)) σ := by
  unfold applyColumnFreeze colFreezeGuard actualColFreezeOf
  by_cases h1 : cf ≤ 0
  · rw [if_pos h1, if_pos (Or.inl h1)]
  · rw [if_neg h1]
    by_cases h2 : (buildCellMatrix t).maxCol = some 0
    · rw [if_pos h2, if_pos (Or.inr (Or.inl h2))]
    · rw [if_neg h2]
      by_cases h3 : g.colWidths.length = 0
      · rw [if_pos h3, if_pos (Or.inr (Or.inr h3))]
      · rw [if_neg h3, if_neg (by push_neg; exact ⟨by omega, h2, h3⟩)]

theorem applyRowFreeze_eq (t : Table) (g : Geom) (rf cf : Int)
    (σ : Styles) :
    applyRowFreeze t g rf cf σ =
      if rowFreezeGuard t rf then σ
      else
        ((List.range (frozenRowCount t rf)).foldl
          (fun (p : Styles × Int) i =>
            (((allRowsOf t).getD i []).foldl (fun σ id =>
              if id ∈ getCellsForRowFreeze t (buildCellMatrix t) rf then
                updStyle σ id (rowCellUpdate
                  (mapGet (buildCellMatrix t).cellInfo id) cf
                  (prefixOffsets g.colWidths
                    (if cf ≤ 0 then 0
                     else min cf.toNat g.colWidths.length))
                  (getRowBoundaryIndex t (buildCellMatrix t) rf) rf i p.2)
              else σ) p.1,
              p.2 + ((List.range (frozenRowCount t rf)).map
                (fun i => max 0 (g.rowHeights.getD i 0))).getD i 0))
          (σ, 0)).1 := by
  unfold applyRowFreeze rowFreezeGuard frozenRowCount allRowsOf
  by_cases h : t.tbody = none ∨ rf ≤ 0
  · rw [if_pos h]
  · rw [if_neg h]

/-! ## Pointwise behaviour of the appliers -/

/-- A property established at some visited element and preserved by every
step holds of the fold's result. -/
theorem foldl_estab {α β : Type} (step : β → α → β) (Q : β → Prop)
    (hstable : ∀ b a, Q b → Q (step b a)) :
    ∀ (l : List α) (x : α), x ∈ l → (∀ b, Q (step b x)) →
      ∀ b, Q (l.foldl step b) := by
  intro l
  induction l with
  | nil =>
    intro x hx
    cases hx
  | cons a rest ih =>
    intro x hx hestab b
    rcases List.mem_cons.mp hx with rfl | hx'
    · exact foldl_invariant Q step rest (step b x) (hestab b)
        (fun b' a' _ hq => hstable b' a' hq)
    · exact ih x hx' hestab (step b a)

theorem getCellsForRowFreeze_eq (t : Table) (md : MatrixData)
    (rf : Int) :
    getCellsForRowFreeze t md rf =
      if 0 < rf ∧ 0 < (allRowsOf t).length then
        (List.range (min rf.toNat (allRowsOf t).length)).foldl
          (fun s rowIndex =>
            ((allRowsOf t).getD rowIndex []).foldl (fun s id =>
              match mapGet md.cellInfo id with
              | none => s
              | some info =>
                if (rowIndex : Int) < rf ∨
                    (rowIndex : Int) + info.rowspan - 1 < rf then
                  setAdd s id
                else s) s) []
      else [] := rfl

theorem getCellsForRowFreeze_visited (t : Table) (md : MatrixData)
    (rf : Int) (id : CellId)
    (h : id ∈ getCellsForRowFreeze t md rf) :
    ∃ i, i < min rf.toNat (allRowsOf t).length ∧
      id ∈ (allRowsOf t).getD i [] := by
  rw [getCellsForRowFreeze_eq] at h
  by_cases hg : 0 < rf ∧ 0 < (allRowsOf t).length
  · rw [if_pos hg] at h
    refine foldl_invariant
      (fun s : List CellId => ∀ x ∈ s,
        ∃ i, i < min rf.toNat (allRowsOf t).length ∧
          x ∈ (allRowsOf t).getD i [])
      (fun s rowIndex =>
        ((allRowsOf t).getD rowIndex []).foldl (fun s id =>
          match mapGet md.cellInfo id with
          | none => s
          | some info =>
            if (rowIndex : Int) < rf ∨
                (rowIndex : Int) + info.rowspan - 1 < rf then
              setAdd s id
            else s) s)
      (List.range (min rf.toNat (allRowsOf t).length)) []
      (fun x hx => absurd hx (List.not_mem_nil x)) ?_ id h
    intro s rowIndex hrow hs
    have hrow' : rowIndex < min rf.toNat (allRowsOf t).length :=
      List.mem_range.mp hrow
    refine foldl_invariant
      (fun s : List CellId => ∀ x ∈ s,
        ∃ i, i < min rf.toNat (allRowsOf t).length ∧
          x ∈ (allRowsOf t).getD i [])
      (fun s id =>
        match mapGet md.cellInfo id with
        | none => s
        | some info =>
          if (rowIndex : Int) < rf ∨
              (rowIndex : Int) + info.rowspan - 1 < rf then
            setAdd s id
          else s)
      ((allRowsOf t).getD rowIndex []) s hs ?_
    intro s' a ha hs' x hx
    cases hget : mapGet md.cellInfo a with
    | none =>
      simp only [hget] at hx
      exact hs' x hx
    | some info =>
      simp only [hget] at hx
      by_cases hcond : (rowIndex : Int) < rf ∨
          (rowIndex : Int) + info.rowspan - 1 < rf
      · rw [if_pos hcond] at hx
        rcases (mem_setAdd s' a x).mp hx with hx' | rfl
        · exact hs' x hx'
        · exact ⟨rowIndex, hrow', ha⟩
      · rw [if_neg hcond] at hx
        exact hs' x hx
  · rw [if_neg hg] at h
    cases h

theorem getCellsForColumnFreeze_has_info (t : Table) (c : Int)
    (id : CellId)
    (h : id ∈ getCellsForColumnFreeze (buildCellMatrix t) c) :
    ∃ i, mapGet (buildCellMatrix t).cellInfo id = some i := by
  unfold getCellsForColumnFreeze at h
  by_cases hc : c ≤ 0
  · rw [if_pos hc] at h
    cases h
  · rw [if_neg hc] at h
    have h' := (mem_foldl_setAdd (fun p : CellId × CellInfo => p.1)
      (fun p : CellId × CellInfo =>
        p.2.col < c ∨ (p.2.col < c ∧ c ≤ p.2.col + p.2.colspan - 1))
      (buildCellMatrix t).cellInfo [] id).mp h
    rcases h' with h' | ⟨p, hp, hpk, _⟩
    · cases h'
    · exact ⟨p.2, hpk ▸ mapGet_eq_some_of_mem _
        (buildCellMatrix_info_invariants t).2 _ _ hp⟩

/-- A cell outside `colFrozenApplied` is untouched by
`applyColumnFreeze`. -/
theorem applyColumnFreeze_not_mem (t : Table) (g : Geom) (cf : Int)
    (σ : Styles) (id : CellId) (h : id ∉ colFrozenApplied t g cf) :
    applyColumnFreeze t g cf σ id = σ id := by
  rw [applyColumnFreeze_eq]
  unfold colFrozenApplied at h
  by_cases hg : colFreezeGuard t g cf
  · rw [if_pos hg]
  · rw [if_neg hg]
    rw [if_neg hg] at h
    refine foldl_rel (fun σ1 σ2 : Styles => σ2 id = σ1 id)
      _ _ σ (fun x => rfl) (fun a b c h1 h2 => h2.trans h1) ?_
    intro σ' a ha
    cases hget : mapGet (buildCellMatrix t).cellInfo a with
    | none => simp [hget]
    | some info =>
      simp only [hget]
      unfold updStyle
      rw [if_neg (fun he : id = a => h (he ▸ ha))]

/-- A cell outside `rowFrozenApplied` is untouched by `applyRowFreeze`. -/
theorem applyRowFreeze_not_mem (t : Table) (g : Geom) (rf cf : Int)
    (σ : Styles) (id : CellId) (h : id ∉ rowFrozenApplied t rf) :
    applyRowFreeze t g rf cf σ id = σ id := by
  rw [applyRowFreeze_eq]
  unfold rowFrozenApplied at h
  by_cases hg : rowFreezeGuard t rf
  · rw [if_pos hg]
  · rw [if_neg hg]
    rw [if_neg hg] at h
    refine foldl_rel
      (fun p q : Styles × Int => q.1 id = p.1 id)
      _ _ ((σ, 0) : Styles × Int)
      (fun x => rfl) (fun a b c h1 h2 => h2.trans h1) ?_
    intro p i _
    simp only
    refine foldl_rel (fun σ1 σ2 : Styles => σ2 id = σ1 id)
      _ _ p.1 (fun x => rfl) (fun a b c h1 h2 => h2.trans h1) ?_
    intro σ' a _
    by_cases hfz : a ∈ getCellsForRowFreeze t (buildCellMatrix t) rf
    · rw [if_pos hfz]
      unfold updStyle
      rw [if_neg (fun he : id = a => h (he ▸ hfz))]
    · rw [if_neg hfz]

/-- Relation-preservation through `applyColumnFreeze`: any reflexive
transitive relation each per-cell update bears to its input relates a
cell's style before and after the applier. -/
theorem applyColumnFreeze_rel (t : Table) (g : Geom) (cf : Int)
    (σ : Styles) (id : CellId) (R : CellStyle → CellStyle → Prop)
    (hrefl : ∀ x, R x x) (htrans : ∀ x y z, R x y → R y z → R x z)
    (hupd : ∀ offs bCol acf info st,
      R st (colCellUpdate offs bCol acf info st)) :
    R (σ id) (applyColumnFreeze t g cf σ id) := by
  rw [applyColumnFreeze_eq]
  by_cases hg : colFreezeGuard t g cf
  · rw [if_pos hg]
    exact hrefl _
  · rw [if_neg hg]
    refine foldl_rel (fun σ1 σ2 : Styles => R (σ1 id) (σ2 id))
      _ _ σ (fun x => hrefl _) (fun a b c h1 h2 => htrans _ _ _ h1 h2) ?_
    intro σ' a _
    cases hget : mapGet (buildCellMatrix t).cellInfo a with
    | none =>
      simp only [hget]
      exact hrefl _
    | some info =>
      simp only [hget]
      unfold updStyle
      by_cases he : id = a
      · rw [if_pos he]
        exact hupd _ _ _ _ _
      · rw [if_neg he]
        exact hrefl _

/-- Relation-preservation through `applyRowFreeze`. -/
theorem applyRowFreeze_rel (t : Table) (g : Geom) (rf cf : Int)
    (σ : Styles) (id : CellId) (R : CellStyle → CellStyle → Prop)
    (hrefl : ∀ x, R x x) (htrans : ∀ x y z, R x y → R y z → R x z)
    (hupd : ∀ info? colF offs bRow rF i topAcc st,
      R st (rowCellUpdate info? colF offs bRow rF i topAcc st)) :
    R (σ id) (applyRowFreeze t g rf cf σ id) := by
  rw [applyRowFreeze_eq]
  by_cases hg : rowFreezeGuard t rf
  · rw [if_pos hg]
    exact hrefl _
  · rw [if_neg hg]
    refine foldl_rel
      (fun p q : Styles × Int => R (p.1 id) (q.1 id))
      _ _ ((σ, 0) : Styles × Int)
      (fun x => hrefl _) (fun a b c h1 h2 => htrans _ _ _ h1 h2) ?_
    intro p i _
    simp only
    refine foldl_rel (fun σ1 σ2 : Styles => R (σ1 id) (σ2 id))
      _ _ p.1 (fun x => hrefl _) (fun a b c h1 h2 => htrans _ _ _ h1 h2) ?_
    intro σ' a _
    by_cases hfz : a ∈ getCellsForRowFreeze t (buildCellMatrix t) rf
    · rw [if_pos hfz]
      unfold updStyle
      by_cases he : id = a
      · rw [if_pos he]
        exact hupd _ _ _ _ _ _ _ _
      · rw [if_neg he]
        exact hrefl _
    · rw [if_neg hfz]
      exact hrefl _

/-- A cell the column applier styles satisfies any property every
per-cell update output satisfies. -/
theorem applyColumnFreeze_visited (t : Table) (g : Geom) (cf : Int)
    (σ : Styles) (id : CellId) (h : id ∈ colFrozenApplied t g cf)
    (Q : CellStyle → Prop)
    (hupd : ∀ offs bCol acf info st,
      Q (colCellUpdate offs bCol acf info st)) :
    Q (applyColumnFreeze t g cf σ id) := by
  unfold colFrozenApplied at h
  by_cases hg : colFreezeGuard t g cf
  · rw [if_pos hg] at h
    cases h
  · rw [if_neg hg] at h
    rw [applyColumnFreeze_eq, if_neg hg]
    obtain ⟨info0, hinfo0⟩ := getCellsForColumnFreeze_has_info t _ id h
    have hstable : ∀ (σ' : Styles) a, Q (σ' id) →
        Q ((match mapGet (buildCellMatrix t).cellInfo a with
          | none => σ'
          | some info =>
            updStyle σ' a (colCellUpdate
              (prefixOffsets g.colWidths (actualColFreezeOf g cf))
              (getColumnBoundaryIndex (buildCellMatrix t)
                (actualColFreezeOf g cf))
              (actualColFreezeOf g cf) info)) id) := by
      intro σ' a hq
      cases hget : mapGet (buildCellMatrix t).cellInfo a with
      | none => simpa [hget] using hq
      | some info =>
        simp only [hget]
        unfold updStyle
        by_cases he : id = a
        · rw [if_pos he]
          exact hupd _ _ _ _ _
        · rw [if_neg he]
          exact hq
    refine foldl_estab _ (fun σ' : Styles => Q (σ' id))
      (fun σ' a hq => hstable σ' a hq) _ id h ?_ σ
    intro σ'
    simp only [hinfo0]
    unfold updStyle
    rw [if_pos rfl]
    exact hupd _ _ _ _ _

/-- A cell the row applier styles satisfies any property every per-cell
update output satisfies. -/
theorem applyRowFreeze_visited (t : Table) (g : Geom) (rf cf : Int)
    (σ : Styles) (id : CellId) (h : id ∈ rowFrozenApplied t rf)
    (Q : CellStyle → Prop)
    (hupd : ∀ info? colF offs bRow rF i topAcc st,
      Q (rowCellUpdate info? colF offs bRow rF i topAcc st)) :
    Q (applyRowFreeze t g rf cf σ id) := by
  unfold rowFrozenApplied at h
  by_cases hg : rowFreezeGuard t rf
  · rw [if_pos hg] at h
    cases h
  · rw [if_neg hg] at h
    rw [applyRowFreeze_eq, if_neg hg]
    obtain ⟨i0, hi0, hmemrow⟩ :=
      getCellsForRowFreeze_visited t (buildCellMatrix t) rf id h
    have hstep : ∀ (i : Nat) (topAcc : Int) (σ' : Styles) (a : CellId),
        Q (σ' id) →
        Q ((if a ∈ getCellsForRowFreeze t (buildCellMatrix t) rf then
              updStyle σ' a (rowCellUpdate
                (mapGet (buildCellMatrix t).cellInfo a) cf
                (prefixOffsets g.colWidths
                  (if cf ≤ 0 then 0 else min cf.toNat g.colWidths.length))
                (getRowBoundaryIndex t (buildCellMatrix t) rf) rf i topAcc)
            else σ') id) := by
      intro i topAcc σ' a hq
      by_cases hfz : a ∈ getCellsForRowFreeze t (buildCellMatrix t) rf
      · rw [if_pos hfz]
        unfold updStyle
        by_cases he : id = a
        · rw [if_pos he]
          exact hupd _ _ _ _ _ _ _ _
        · rw [if_neg he]
          exact hq
      · rw [if_neg hfz]
        exact hq
    refine foldl_estab _ (fun p : Styles × Int => Q (p.1 id)) ?_
      (List.range (frozenRowCount t rf)) i0 (List.mem_range.mpr hi0) ?_
      ((σ, 0) : Styles × Int)
    · intro p i hq
      simp only
      exact foldl_invariant (fun σ' : Styles => Q (σ' id)) _
        ((allRowsOf t).getD i []) p.1 hq
        (fun σ' a _ hq' => hstep i p.2 σ' a hq')
    · intro p
      simp only
      refine foldl_estab _ (fun σ' : Styles => Q (σ' id))
        (fun σ' a hq' => hstep i0 p.2 σ' a hq')
        ((allRowsOf t).getD i0 []) id hmemrow ?_ p.1
      intro σ'
      rw [if_pos h]
      unfold updStyle
      rw [if_pos rfl]
      exact hupd _ _ _ _ _ _ _ _

/-! ## Clearing, corner priority, and membership bookkeeping -/

theorem tableCells_eq_flatten_allRows (t : Table) :
    tableCells t = (allRowsOf t).flatten := rfl

theorem mem_tableCells_of_mem_row (t : Table) (i : Nat) (id : CellId)
    (hi : i < (allRowsOf t).length) (h : id ∈ (allRowsOf t).getD i []) :
    id ∈ tableCells t := by
  rw [tableCells_eq_flatten_allRows]
  rw [List.mem_flatten]
  refine ⟨(allRowsOf t).getD i [], ?_, h⟩
  rw [List.getD_eq_getElem?_getD, List.getElem?_eq_getElem hi]
  exact List.getElem_mem hi

theorem rowFrozenApplied_subset (t : Table) (rf : Int) (id : CellId)
    (h : id ∈ rowFrozenApplied t rf) : id ∈ tableCells t := by
  unfold rowFrozenApplied at h
  by_cases hg : rowFreezeGuard t rf
  · rw [if_pos hg] at h
    cases h
  · rw [if_neg hg] at h
    obtain ⟨i, hi, hmem⟩ :=
      getCellsForRowFreeze_visited t (buildCellMatrix t) rf id h
    exact mem_tableCells_of_mem_row t i id (by omega) hmem

theorem mem_mapSet_cases (m : InfoMap) (k : CellId) (v : CellInfo)
    (p : CellId × CellInfo) (h : p ∈ mapSet m k v) :
    p ∈ m ∨ p.1 = k := by
  rw [mapSet_eq] at h
  by_cases hany : m.any (fun q => q.1 = k)
  · rw [if_pos hany] at h
    obtain ⟨q, hq, hqe⟩ := List.mem_map.mp h
    by_cases hqk : q.1 = k
    · rw [if_pos hqk] at hqe
      right
      rw [← hqe]
    · rw [if_neg hqk] at hqe
      left
      exact hqe ▸ hq
  · rw [if_neg hany] at h
    rcases List.mem_append.mp h with h' | h'
    · exact Or.inl h'
    · right
      rcases List.mem_singleton.mp h' with rfl
      rfl

/-- Every key stored in `cellInfo` is a cell of the table. -/
theorem cellInfo_keys_subset (t : Table) (p : CellId × CellInfo)
    (hp : p ∈ (buildCellMatrix t).cellInfo) : p.1 ∈ tableCells t := by
  have hmain := foldl_invariant
    (fun st : Matrix × InfoMap => ∀ q ∈ st.2, q.1 ∈ tableCells t)
    (placeRow t.attrs) t.rows.enum ([], [])
    (by intro q hq; cases hq) ?_
  · exact hmain p hp
  · intro st rp hrp hst
    unfold placeRow
    refine foldl_invariant
      (fun st : Matrix × InfoMap × Int => ∀ q ∈ st.2.1, q.1 ∈ tableCells t)
      (placeCell t.attrs rp.1) rp.2 (ensureRow st.1 rp.1, st.2, 0) hst ?_
    intro st' a ha hst' q hq
    unfold placeCell at hq
    simp only at hq
    rcases mem_mapSet_cases _ _ _ q hq with hq' | hq'
    · exact hst' q hq'
    · rw [hq']
      rw [tableCells_eq_flatten_allRows, List.mem_flatten]
      refine ⟨rp.2, ?_, ha⟩
      have hmem : rp.2 ∈ t.rows.enum.map (fun p => p.2) :=
        List.mem_map.mpr ⟨rp, hrp, rfl⟩
      rw [show t.rows.enum.map (fun p => p.2) = t.rows from
        List.enum_map_snd t.rows] at hmem
      exact hmem

theorem colFrozenApplied_subset (t : Table) (g : Geom) (cf : Int)
    (id : CellId) (h : id ∈ colFrozenApplied t g cf) :
    id ∈ tableCells t := by
  unfold colFrozenApplied at h
  by_cases hg : colFreezeGuard t g cf
  · rw [if_pos hg] at h
    cases h
  · rw [if_neg hg] at h
    unfold getCellsForColumnFreeze at h
    by_cases hc : (actualColFreezeOf g cf : Int) ≤ 0
    · rw [if_pos hc] at h
      cases h
    · rw [if_neg hc] at h
      have h' := (mem_foldl_setAdd (fun p : CellId × CellInfo => p.1)
        (fun p : CellId × CellInfo =>
          p.2.col < (actualColFreezeOf g cf : Int) ∨
            (p.2.col < (actualColFreezeOf g cf : Int) ∧
              (actualColFreezeOf g cf : Int) ≤
                p.2.col + p.2.colspan - 1))
        (buildCellMatrix t).cellInfo [] id).mp h
      rcases h' with h' | ⟨p, hp, hpk, _⟩
      · cases h'
      · exact hpk ▸ cellInfo_keys_subset t p hp

theorem clearStyles_outside (t : Table) (σ : Styles) (id : CellId)
    (h : id ∉ tableCells t) : clearStyles t σ id = σ id := by
  unfold clearStyles
  rw [if_neg (fun hh => h hh.1)]

theorem clearStyles_no_marker (t : Table) (σ : Styles) (id : CellId)
    (h : id ∈ tableCells t) : ¬ hasMarker (clearStyles t σ id) := by
  unfold clearStyles
  by_cases hm : hasMarker (σ id)
  · rw [if_pos ⟨h, hm⟩]
    unfold clearCellStyle hasMarker
    rintro ⟨c, hc, hcm⟩
    simp only [List.mem_filter, nonMarker] at hc
    exact decide_eq_true_iff.mp hc.2 hcm
  · rw [if_neg (fun hh => hm hh.2)]
    exact hm

theorem clearStyles_classes (t : Table) (σ : Styles) (id : CellId)
    (h : id ∈ tableCells t) :
    (clearStyles t σ id).classes = (σ id).classes.filter nonMarker := by
  unfold clearStyles
  by_cases hm : hasMarker (σ id)
  · rw [if_pos ⟨h, hm⟩]
    rfl
  · rw [if_neg (fun hh => hm hh.2)]
    refine (List.filter_eq_self.mpr ?_).symm
    intro c hc
    unfold nonMarker
    simp only [decide_eq_true_iff]
    intro hcm
    exact hm ⟨c, hc, hcm⟩

theorem clearStyles_fields (t : Table) (σ : Styles) (id : CellId)
    (h : id ∈ tableCells t)
    (hpr : (σ id).position = "" ∧ (σ id).left = none ∧
      (σ id).top = none) :
    (clearStyles t σ id).position = "" ∧
      (clearStyles t σ id).left = none ∧
      (clearStyles t σ id).top = none := by
  unfold clearStyles
  by_cases hm : hasMarker (σ id)
  · rw [if_pos ⟨h, hm⟩]
    exact ⟨rfl, rfl, rfl⟩
  · rw [if_neg (fun hh => hm hh.2)]
    exact hpr

theorem applyCornerPriority_outside (t : Table) (cf : Int) (σ : Styles)
    (id : CellId) (h : id ∉ tableCells t) :
    applyCornerPriority t cf σ id = σ id := by
  unfold applyCornerPriority
  by_cases hg : cf ≤ 0
  · rw [if_pos hg]
  · rw [if_neg hg]
    simp only
    rw [if_neg (fun hh => h hh.1)]

/-- Corner priority leaves a cell unchanged unless it carries both
individual markers. -/
theorem applyCornerPriority_not_both (t : Table) (cf : Int) (σ : Styles)
    (id : CellId)
    (h : ¬ ("freeze-col" ∈ (σ id).classes ∧
      "freeze-row" ∈ (σ id).classes)) :
    applyCornerPriority t cf σ id = σ id := by
  unfold applyCornerPriority
  by_cases hg : cf ≤ 0
  · rw [if_pos hg]
  · rw [if_neg hg]
    simp only
    rw [if_neg (fun hh => h ⟨hh.2.1, hh.2.2⟩)]

/-- Corner priority on a both-marked table cell: both individual markers
go, the combined marker arrives. -/
theorem applyCornerPriority_both (t : Table) (cf : Int) (σ : Styles)
    (id : CellId) (hcf : ¬ cf ≤ 0) (hid : id ∈ tableCells t)
    (hcol : "freeze-col" ∈ (σ id).classes)
    (hrow : "freeze-row" ∈ (σ id).classes) :
    (applyCornerPriority t cf σ id).classes =
      classAdd ((σ id).classes.filter
        (fun c => ¬ (c = "freeze-col" ∨ c = "freeze-row")))
        "freeze-both" := by
  unfold applyCornerPriority
  rw [if_neg hcf]
  simp only
  rw [if_pos ⟨hid, hcol, hrow⟩]

theorem applyCornerPriority_hasMarker (t : Table) (cf : Int)
    (σ : Styles) (id : CellId) (h : hasMarker (σ id)) :
    hasMarker (applyCornerPriority t cf σ id) := by
  unfold applyCornerPriority
  by_cases hg : cf ≤ 0
  · rw [if_pos hg]
    exact h
  · rw [if_neg hg]
    simp only
    by_cases hb : id ∈ tableCells t ∧ "freeze-col" ∈ (σ id).classes ∧
        "freeze-row" ∈ (σ id).classes
    · rw [if_pos hb]
      exact ⟨"freeze-both",
        (mem_classAdd _ _ _).mpr (Or.inr rfl), by simp [markerClasses]⟩
    · rw [if_neg hb]
      exact h

theorem applyCornerPriority_filter_nonMarker (t : Table) (cf : Int)
    (σ : Styles) (id : CellId) :
    (applyCornerPriority t cf σ id).classes.filter nonMarker =
      (σ id).classes.filter nonMarker := by
  unfold applyCornerPriority
  by_cases hg : cf ≤ 0
  · rw [if_pos hg]
  · rw [if_neg hg]
    by_cases hb : id ∈ tableCells t ∧ "freeze-col" ∈ (σ id).classes ∧
        "freeze-row" ∈ (σ id).classes
    · rw [if_pos hb]
      rw [filter_nonMarker_classAdd _ _ (by simp [markerClasses]),
        List.filter_filter]
      refine List.filter_congr ?_
      intro c _
      cases hnm : nonMarker c
      · simp
      · simp only [Bool.true_and]
        unfold nonMarker at hnm
        have hc : ¬ c ∈ markerClasses := by
          simpa using hnm
        have h1 : ¬ (c = "freeze-col" ∨ c = "freeze-row") := by
          rintro (rfl | rfl) <;> exact hc (by simp [markerClasses])
        simp [h1]
    · rw [if_neg hb]

theorem getFreezeCount_num_nat (n : Nat) :
    getFreezeCount (.num (n : Int)) = n := by
  show (if 0 < (n : Int) then ((n : Int)).toNat else 0) = n
  by_cases h : 0 < (n : Int)
  · rw [if_pos h]
    omega
  · rw [if_neg h]
    omega

theorem clearStyles_marked (t : Table) (σ : Styles) (id : CellId)
    (h1 : id ∈ tableCells t) (h2 : hasMarker (σ id)) :
    clearStyles t σ id = clearCellStyle (σ id) := by
  unfold clearStyles
  rw [if_pos ⟨h1, h2⟩]

theorem clearStyles_unmarked (t : Table) (σ : Styles) (id : CellId)
    (h : ¬ hasMarker (σ id)) : clearStyles t σ id = σ id := by
  unfold clearStyles
  rw [if_neg (fun hh => h hh.2)]

/-- `clearFreezeStyles` undoes one application of the three freeze
appliers on styles whose inline positioning fields started empty. -/
theorem clearStyles_roundtrip (t : Table) (g : Geom) (s : Styles)
    (nr nc : Int)
    (hpr : ∀ id ∈ tableCells t, (s id).position = "" ∧
      (s id).left = none ∧ (s id).top = none) :
    clearStyles t
      (applyCornerPriority t nc
        (applyColumnFreeze t g nc
          (applyRowFreeze t g nr nc (clearStyles t s)))) =
      clearStyles t s := by
  funext id
  by_cases hid : id ∈ tableCells t
  · have hnm : ¬ hasMarker (clearStyles t s id) :=
      clearStyles_no_marker t s id hid
    by_cases hfz : id ∈ rowFrozenApplied t nr ∨
        id ∈ colFrozenApplied t g nc
    · have hmark : hasMarker
          ((applyCornerPriority t nc
            (applyColumnFreeze t g nc
              (applyRowFreeze t g nr nc (clearStyles t s)))) id) := by
        apply applyCornerPriority_hasMarker
        rcases hfz with hr | hc
        · have h1 : hasMarker
              (applyRowFreeze t g nr nc (clearStyles t s) id) := by
            refine applyRowFreeze_visited t g nr nc _ id hr hasMarker ?_
            intro info? colF offs bRow rF i topAcc st
            exact ⟨"freeze-row",
              (rowCellUpdate_mem info? colF offs bRow rF i topAcc st
                "freeze-row").mpr (Or.inr (Or.inl rfl)),
              by simp [markerClasses]⟩
          have h2 := applyColumnFreeze_rel t g nc
            (applyRowFreeze t g nr nc (clearStyles t s)) id
            (fun x y => x.classes ⊆ y.classes)
            (fun x => List.Subset.refl _)
            (fun x y z hxy hyz => List.Subset.trans hxy hyz)
            (fun offs bCol acf info st => by
              intro c hcc
              exact (colCellUpdate_mem offs bCol acf info st c).mpr
                (Or.inl hcc))
          obtain ⟨c, hcmem, hcm⟩ := h1
          exact ⟨c, h2 hcmem, hcm⟩
        · refine applyColumnFreeze_visited t g nc _ id hc hasMarker ?_
          intro offs bCol acf info st
          exact ⟨"freeze-col",
            (colCellUpdate_mem offs bCol acf info st "freeze-col").mpr
              (Or.inr (Or.inl rfl)),
            by simp [markerClasses]⟩
      rw [clearStyles_marked t _ id hid hmark]
      have hchain : ((applyCornerPriority t nc
            (applyColumnFreeze t g nc
              (applyRowFreeze t g nr nc
                (clearStyles t s)))) id).classes.filter nonMarker =
          (clearStyles t s id).classes := by
        rw [applyCornerPriority_filter_nonMarker]
        have hcolrel := applyColumnFreeze_rel t g nc
          (applyRowFreeze t g nr nc (clearStyles t s)) id
          (fun x y => y.classes.filter nonMarker =
            x.classes.filter nonMarker)
          (fun x => rfl) (fun x y z hxy hyz => hyz.trans hxy)
          (fun offs bCol acf info st =>
            colCellUpdate_filter_nonMarker offs bCol acf info st)
        have hrowrel := applyRowFreeze_rel t g nr nc (clearStyles t s) id
          (fun x y => y.classes.filter nonMarker =
            x.classes.filter nonMarker)
          (fun x => rfl) (fun x y z hxy hyz => hyz.trans hxy)
          (fun info? colF offs bRow rF i topAcc st =>
            rowCellUpdate_filter_nonMarker info? colF offs bRow rF i
              topAcc st)
        rw [hcolrel, hrowrel]
        refine List.filter_eq_self.mpr ?_
        intro c hcmem
        unfold nonMarker
        simp only [decide_eq_true_iff]
        intro hcm
        exact hnm ⟨c, hcmem, hcm⟩
      obtain ⟨hp, hl, ht⟩ := clearStyles_fields t s id hid (hpr id hid)
      unfold clearCellStyle
      exact CellStyle.ext hp.symm hl.symm ht.symm hchain
    · push_neg at hfz
      have hrow := applyRowFreeze_not_mem t g nr nc (clearStyles t s) id
        hfz.1
      have hcol := applyColumnFreeze_not_mem t g nc
        (applyRowFreeze t g nr nc (clearStyles t s)) id hfz.2
      have heq : applyColumnFreeze t g nc
          (applyRowFreeze t g nr nc (clearStyles t s)) id =
          clearStyles t s id := hcol.trans hrow
      have hnb : ¬ ("freeze-col" ∈ (applyColumnFreeze t g nc
            (applyRowFreeze t g nr nc (clearStyles t s)) id).classes ∧
          "freeze-row" ∈ (applyColumnFreeze t g nc
            (applyRowFreeze t g nr nc
              (clearStyles t s)) id).classes) := by
        rw [heq]
        rintro ⟨hcmem, _⟩
        exact hnm ⟨"freeze-col", hcmem, by simp [markerClasses]⟩
      have hcorner := (applyCornerPriority_not_both t nc _ id hnb).trans
        heq
      have hmm : ¬ hasMarker ((applyCornerPriority t nc
          (applyColumnFreeze t g nc
            (applyRowFreeze t g nr nc (clearStyles t s)))) id) := by
        rw [hcorner]
        exact hnm
      rw [clearStyles_unmarked t _ id hmm, hcorner]
  · have hrow := applyRowFreeze_not_mem t g nr nc (clearStyles t s) id
      (fun h => hid (rowFrozenApplied_subset t nr id h))
    have hcol := applyColumnFreeze_not_mem t g nc
      (applyRowFreeze t g nr nc (clearStyles t s)) id
      (fun h => hid (colFrozenApplied_subset t g nc id h))
    rw [clearStyles_outside t _ id hid,
      applyCornerPriority_outside t nc _ id hid, hcol, hrow]

theorem applyFreezeToTable_eq (t : Table) (g : Geom) (d : DomState) :
    applyFreezeToTable t g d =
      { colAttr := .num (getFreezeCount d.colAttr : Int),
        rowAttr := .num (getFreezeCount d.rowAttr : Int),
        freezeBg := false,
        styles := applyCornerPriority t (getFreezeCount d.colAttr : Int)
          (applyColumnFreeze t g (getFreezeCount d.colAttr : Int)
            (applyRowFreeze t g (getFreezeCount d.rowAttr : Int)
              (getFreezeCount d.colAttr : Int)
              (clearStyles t d.styles))) } := rfl

/-- C6 counterexample: with a pre-existing inline `left: 9px` on a cell
that row freezing then marks, the first `applyFreezeToTable` keeps the
stale `left` (the cell matches no marker selector yet, so
`clearFreezeStyles` skips it) while the second call clears it: the two
invocations do not produce the same positioning state. -/
theorem applyFreezeToTable_not_idempotent :
    (applyFreezeToTable staleLeftTable g0
        (applyFreezeToTable staleLeftTable g0 staleDom)).styles 60 ≠
      (applyFreezeToTable staleLeftTable g0 staleDom).styles 60 := by
  decide

/-- C6 (amended): on a table whose cells start with pristine inline
positioning styles (empty `position`, `left`, `top`), invoking
`applyFreezeToTable` twice with no intervening DOM change produces
exactly the same state — attributes, background property, and every
cell's offsets and marker classes — as invoking it once. -/
theorem applyFreezeToTable_idempotent (t : Table) (g : Geom)
    (d : DomState)
    (hpr : ∀ id ∈ tableCells t, (d.styles id).position = "" ∧
      (d.styles id).left = none ∧ (d.styles id).top = none) :
    applyFreezeToTable t g (applyFreezeToTable t g d) =
      applyFreezeToTable t g d := by
  have hkey := clearStyles_roundtrip t g d.styles
    (getFreezeCount d.rowAttr : Int) (getFreezeCount d.colAttr : Int)
    hpr
  simp only [applyFreezeToTable_eq]
  simp only [getFreezeCount_num_nat]
  rw [hkey]

theorem applyFreezeToTable_idempotent_witness :
    (∀ id ∈ tableCells staleLeftTable,
      (pristineDom.styles id).position = "" ∧
        (pristineDom.styles id).left = none ∧
        (pristineDom.styles id).top = none) ∧
      applyFreezeToTable staleLeftTable g0
          (applyFreezeToTable staleLeftTable g0 pristineDom) =
        applyFreezeToTable staleLeftTable g0 pristineDom :=
  ⟨by decide,
    applyFreezeToTable_idempotent staleLeftTable g0 pristineDom
      (by decide)⟩

theorem applyColumnFreeze_guard_eq (t : Table) (g : Geom) (cf : Int)
    (σ : Styles) (h : colFreezeGuard t g cf) :
    applyColumnFreeze t g cf σ = σ := by
  rw [applyColumnFreeze_eq, if_pos h]

theorem colFrozenApplied_not_guard (t : Table) (g : Geom) (cf : Int)
    (id : CellId) (h : id ∈ colFrozenApplied t g cf) :
    ¬ colFreezeGuard t g cf := by
  intro hg
  unfold colFrozenApplied at h
  rw [if_pos hg] at h
  cases h

/-- The row applier never introduces the `freeze-col` marker. -/
theorem applyRowFreeze_no_new_col (t : Table) (g : Geom) (rf cf : Int)
    (σ : Styles) (id : CellId)
    (h : "freeze-col" ∉ (σ id).classes) :
    "freeze-col" ∉ (applyRowFreeze t g rf cf σ id).classes := by
  intro hmem
  refine h (applyRowFreeze_rel t g rf cf σ id
    (fun x y => "freeze-col" ∈ y.classes → "freeze-col" ∈ x.classes)
    (fun x hx => hx) (fun x y z hxy hyz hz => hxy (hyz hz)) ?_ hmem)
  intro info? colF offs bRow rF i topAcc st hst
  rcases (rowCellUpdate_mem info? colF offs bRow rF i topAcc st
    "freeze-col").mp hst with h1 | h1 | ⟨_, h1⟩
  · exact h1
  · exact absurd h1 (by decide)
  · exact absurd h1 (by decide)

/-- The column applier only ever extends a cell's class list. -/
theorem applyColumnFreeze_classes_subset (t : Table) (g : Geom)
    (cf : Int) (σ : Styles) (id : CellId) :
    (σ id).classes ⊆ (applyColumnFreeze t g cf σ id).classes :=
  applyColumnFreeze_rel t g cf σ id (fun x y => x.classes ⊆ y.classes)
    (fun x => List.Subset.refl _)
    (fun x y z hxy hyz => List.Subset.trans hxy hyz)
    (fun offs bCol acf info st => fun c hc =>
      (colCellUpdate_mem offs bCol acf info st c).mpr (Or.inl hc))

/-- Every cell the row applier styles gains `freeze-row`. -/
theorem applyRowFreeze_adds_row_marker (t : Table) (g : Geom)
    (rf cf : Int) (σ : Styles) (id : CellId)
    (h : id ∈ rowFrozenApplied t rf) :
    "freeze-row" ∈ (applyRowFreeze t g rf cf σ id).classes :=
  applyRowFreeze_visited t g rf cf σ id h
    (fun st => "freeze-row" ∈ st.classes)
    (fun info? colF offs bRow rF i topAcc st =>
      (rowCellUpdate_mem info? colF offs bRow rF i topAcc st
        "freeze-row").mpr (Or.inr (Or.inl rfl)))

/-- Every cell the column applier styles gains `freeze-col`. -/
theorem applyColumnFreeze_adds_col_marker (t : Table) (g : Geom)
    (cf : Int) (σ : Styles) (id : CellId)
    (h : id ∈ colFrozenApplied t g cf) :
    "freeze-col" ∈ (applyColumnFreeze t g cf σ id).classes :=
  applyColumnFreeze_visited t g cf σ id h
    (fun st => "freeze-col" ∈ st.classes)
    (fun offs bCol acf info st =>
      (colCellUpdate_mem offs bCol acf info st "freeze-col").mpr
        (Or.inr (Or.inl rfl)))

/-- C7 (amended): the claimed corner precedence holds for the spans
variant's recompute (`observers.js` appliers, in the order applied by
`applyFreezeToTable`): after a full recompute no table cell carries both
`freeze-col` and `freeze-row`, and every cell styled by both axes
carries `freeze-both` and neither individual marker; the modular
variant's `applyCornerPriority` violates the claim (see the
counterexample), as it only adds `freeze-corner` and removes nothing. -/
theorem applyFreezeToTable_corner_precedence (t : Table) (g : Geom)
    (d : DomState) (id : CellId) (hid : id ∈ tableCells t) :
    (¬ ("freeze-col" ∈ ((applyFreezeToTable t g d).styles id).classes ∧
        "freeze-row" ∈ ((applyFreezeToTable t g d).styles id).classes)) ∧
      (id ∈ rowFrozenApplied t (getFreezeCount d.rowAttr : Int) →
        id ∈ colFrozenApplied t g (getFreezeCount d.colAttr : Int) →
        "freeze-both" ∈ ((applyFreezeToTable t g d).styles id).classes ∧
          "freeze-col" ∉ ((applyFreezeToTable t g d).styles id).classes ∧
          "freeze-row" ∉
            ((applyFreezeToTable t g d).styles id).classes) := by
  simp only [applyFreezeToTable_eq]
  set nr : Int := (getFreezeCount d.rowAttr : Int) with hnr
  set nc : Int := (getFreezeCount d.colAttr : Int) with hnc
  set σ₁ := applyRowFreeze t g nr nc (clearStyles t d.styles) with hσ₁
  set σ₂ := applyColumnFreeze t g nc σ₁ with hσ₂
  have hnm := clearStyles_no_marker t d.styles id hid
  constructor
  · by_cases hb : "freeze-col" ∈ (σ₂ id).classes ∧
        "freeze-row" ∈ (σ₂ id).classes
    · have hcf : ¬ nc ≤ 0 := by
        intro hle
        have hguard : colFreezeGuard t g nc := Or.inl hle
        have hb1 := hb.1
        rw [hσ₂, applyColumnFreeze_guard_eq t g nc σ₁ hguard, hσ₁] at hb1
        have hnc0 : "freeze-col" ∉ (clearStyles t d.styles id).classes :=
          fun hc => hnm ⟨"freeze-col", hc, by simp [markerClasses]⟩
        exact applyRowFreeze_no_new_col t g nr nc
          (clearStyles t d.styles) id hnc0 hb1
      rw [applyCornerPriority_both t nc σ₂ id hcf hid hb.1 hb.2]
      rintro ⟨hc, _⟩
      rcases (mem_classAdd _ _ _).mp hc with hc' | hc'
      · exact absurd (List.mem_filter.mp hc').2 (by decide)
      · exact absurd hc' (by decide)
    · rw [applyCornerPriority_not_both t nc σ₂ id hb]
      exact hb
  · intro hrm hcm
    have hcf : ¬ nc ≤ 0 := by
      intro hle
      exact colFrozenApplied_not_guard t g nc id hcm (Or.inl hle)
    have hrow1 : "freeze-row" ∈ (σ₁ id).classes := by
      rw [hσ₁]
      exact applyRowFreeze_adds_row_marker t g nr nc
        (clearStyles t d.styles) id hrm
    have hrow2 : "freeze-row" ∈ (σ₂ id).classes := by
      rw [hσ₂]
      exact applyColumnFreeze_classes_subset t g nc σ₁ id hrow1
    have hcol2 : "freeze-col" ∈ (σ₂ id).classes := by
      rw [hσ₂]
      exact applyColumnFreeze_adds_col_marker t g nc σ₁ id hcm
    rw [applyCornerPriority_both t nc σ₂ id hcf hid hcol2 hrow2]
    refine ⟨(mem_classAdd _ _ _).mpr (Or.inr rfl), ?_, ?_⟩
    · intro hc
      rcases (mem_classAdd _ _ _).mp hc with hc' | hc'
      · exact absurd (List.mem_filter.mp hc').2 (by decide)
      · exact absurd hc' (by decide)
    · intro hc
      rcases (mem_classAdd _ _ _).mp hc with hc' | hc'
      · exact absurd (List.mem_filter.mp hc').2 (by decide)
      · exact absurd hc' (by decide)

theorem applyFreezeToTable_corner_precedence_witness :
    80 ∈ tableCells bothTable ∧
      ((¬ ("freeze-col" ∈
            ((applyFreezeToTable bothTable g0 bothDom).styles
              80).classes ∧
          "freeze-row" ∈
            ((applyFreezeToTable bothTable g0 bothDom).styles
              80).classes)) ∧
        (80 ∈ rowFrozenApplied bothTable
            (getFreezeCount bothDom.rowAttr : Int) →
          80 ∈ colFrozenApplied bothTable g0
            (getFreezeCount bothDom.colAttr : Int) →
          "freeze-both" ∈
            ((applyFreezeToTable bothTable g0 bothDom).styles
              80).classes ∧
            "freeze-col" ∉
              ((applyFreezeToTable bothTable g0 bothDom).styles
                80).classes ∧
            "freeze-row" ∉
              ((applyFreezeToTable bothTable g0 bothDom).styles
                80).classes)) :=
  ⟨by decide,
    applyFreezeToTable_corner_precedence bothTable g0 bothDom 80
      (by decide)⟩

/-- C7 counterexample: run through the modular variant's appliers
(`applyRowFreeze`, `applyColumnFreeze`, `applyCornerPriority` of
`table_freeze_rows_columns_modular/utils/freeze-appliers.js`) with one
frozen column, the header cell of `cornerTableM` ends up carrying
`freeze-col` and `freeze-row` simultaneously: that variant's corner pass
only adds `freeze-corner` and removes neither individual marker. -/
theorem modular_corner_keeps_both_markers :
    "freeze-col" ∈ ((Modular.applyCornerPriority cornerTableM 1
        (Modular.applyColumnFreeze cornerTableM g0 1
          (Modular.applyRowFreeze cornerTableM [20] [20] 1
            emptyStyles))) 70).classes ∧
      "freeze-row" ∈ ((Modular.applyCornerPriority cornerTableM 1
        (Modular.applyColumnFreeze cornerTableM g0 1
          (Modular.applyRowFreeze cornerTableM [20] [20] 1
            emptyStyles))) 70).classes := by
  decide

theorem processEntries_fields (inDom : Nat → Bool)
    (entries : List Entry) (c : Controller) :
    (entries.foldl (processEntry inDom) c).scrollListenerAttached =
        c.scrollListenerAttached ∧
      (entries.foldl (processEntry inDom) c).scrollRaf = c.scrollRaf := by
  refine foldl_invariant
    (fun c' : Controller =>
      c'.scrollListenerAttached = c.scrollListenerAttached ∧
        c'.scrollRaf = c.scrollRaf)
    (processEntry inDom) entries c ⟨rfl, rfl⟩ ?_
  intro c' e _ h
  unfold processEntry
  by_cases hg : e.target ∈ c'.observedTables ∧ inDom e.target = true
  · rw [if_pos hg]
    by_cases hi : e.isIntersecting
    · rw [if_pos hi]
      exact h
    · rw [if_neg hi]
      exact h
  · rw [if_neg hg]
    exact h

theorem foldl_prune_id (inDom : Nat → Bool) (l z : List Nat)
    (h : ∀ x ∈ l, inDom x = true) :
    l.foldl (fun z t => if inDom t then z else setRemove z t) z = z := by
  induction l generalizing z with
  | nil => rfl
  | cons a rest ih =>
    simp only [List.foldl_cons]
    rw [if_pos (h a (List.mem_cons_self a rest))]
    exact ih z (fun x hx => h x (List.mem_cons_of_mem a hx))

/-- C8 counterexample: table 1 is observed, in the sticky zone, with the
scroll listener attached; it leaves the document and its leave
notification (`isIntersecting = false`) arrives.  The entry guard skips
it (`!document.contains`), the zone still looks non-empty, so the
listener stays attached and `handlePageScroll` then empties the zone:
the notification leaves the listener attached with nothing in the
sticky zone. -/
theorem onIntersection_gating_violated :
    (onIntersection (fun _ => false) [⟨1, false⟩]
        departedController).scrollListenerAttached = true ∧
      (onIntersection (fun _ => false) [⟨1, false⟩]
        departedController).tablesInStickyZone = [] := by
  decide

/-- C8 (amended): provided every table left in the sticky zone after the
entries are processed is still in the document, `_onIntersection`
re-establishes the gating invariant: the scroll listener is attached iff
the sticky zone is non-empty, and when the zone has emptied while the
listener was attached the pending scroll frame is cancelled.  (Without
that proviso the invariant fails, see the counterexample.) -/
theorem onIntersection_gating (inDom : Nat → Bool)
    (entries : List Entry) (c : Controller)
    (hdom : ∀ x ∈ (entries.foldl (processEntry inDom)
      c).tablesInStickyZone, inDom x = true) :
    ((onIntersection inDom entries c).scrollListenerAttached = true ↔
        (onIntersection inDom entries c).tablesInStickyZone ≠ []) ∧
      ((onIntersection inDom entries c).tablesInStickyZone = [] ∧
          c.scrollListenerAttached = true →
        (onIntersection inDom entries c).scrollRaf = 0) := by
  have hfields := processEntries_fields inDom entries c
  unfold onIntersection
  set c1 := entries.foldl (processEntry inDom) c with hc1
  by_cases hz : c1.tablesInStickyZone ≠ []
  · rw [if_pos hz]
    have hzatt : (attachScrollListener c1).tablesInStickyZone =
        c1.tablesInStickyZone := by
      unfold attachScrollListener
      by_cases ha : c1.scrollListenerAttached
      · rw [if_pos ha]
      · rw [if_neg ha]
    have hatt : (attachScrollListener c1).scrollListenerAttached =
        true := by
      unfold attachScrollListener
      by_cases ha : c1.scrollListenerAttached
      · rw [if_pos ha]
        exact ha
      · rw [if_neg ha]
    have hzone2 : (handlePageScrollZone inDom
        (attachScrollListener c1)).tablesInStickyZone =
        c1.tablesInStickyZone := by
      unfold handlePageScrollZone
      rw [if_pos (by rw [hzatt]; exact hz)]
      show (attachScrollListener c1).tablesInStickyZone.foldl _
        (attachScrollListener c1).tablesInStickyZone = _
      rw [hzatt]
      exact foldl_prune_id inDom c1.tablesInStickyZone
        c1.tablesInStickyZone hdom
    have hatt2 : (handlePageScrollZone inDom
        (attachScrollListener c1)).scrollListenerAttached = true := by
      unfold handlePageScrollZone
      by_cases h2 : (attachScrollListener c1).tablesInStickyZone ≠ []
      · rw [if_pos h2]
        exact hatt
      · rw [if_neg h2]
        exact hatt
    refine ⟨⟨fun _ => ?_, fun _ => hatt2⟩, ?_⟩
    · rw [hzone2]
      exact hz
    · rintro ⟨hze, _⟩
      rw [hzone2] at hze
      exact absurd hze hz
  · rw [if_neg hz]
    push_neg at hz
    have hdet_att : (detachScrollListener c1).scrollListenerAttached =
        false := by
      unfold detachScrollListener
      by_cases ha : c1.scrollListenerAttached
      · rw [if_pos ha]
        by_cases hr : c1.scrollRaf ≠ 0
        · rw [if_pos hr]
        · rw [if_neg hr]
      · rw [if_neg ha]
        exact Bool.not_eq_true _ ▸ (by simpa using ha)
    have hdet_zone : (detachScrollListener c1).tablesInStickyZone =
        c1.tablesInStickyZone := by
      unfold detachScrollListener
      by_cases ha : c1.scrollListenerAttached
      · rw [if_pos ha]
        by_cases hr : c1.scrollRaf ≠ 0
        · rw [if_pos hr]
        · rw [if_neg hr]
      · rw [if_neg ha]
    have hdet_raf : c1.scrollListenerAttached = true →
        (detachScrollListener c1).scrollRaf = 0 := by
      intro ha
      unfold detachScrollListener
      rw [if_pos ha]
      by_cases hr : c1.scrollRaf ≠ 0
      · rw [if_pos hr]
      · rw [if_neg hr]
        show c1.scrollRaf = 0
        omega
    refine ⟨⟨fun hat => ?_, fun hne => ?_⟩, ?_⟩
    · rw [hdet_att] at hat
      cases hat
    · rw [hdet_zone, hz] at hne
      exact absurd rfl hne
    · rintro ⟨_, hcat⟩
      exact hdet_raf (hfields.1.trans hcat)

theorem onIntersection_gating_witness :
    (∀ x ∈ (([⟨2, true⟩] : List Entry).foldl
        (processEntry (fun _ => true))
        liveController).tablesInStickyZone, (fun _ => true) x = true) ∧
      (((onIntersection (fun _ => true) [⟨2, true⟩]
            liveController).scrollListenerAttached = true ↔
          (onIntersection (fun _ => true) [⟨2, true⟩]
            liveController).tablesInStickyZone ≠ []) ∧
        ((onIntersection (fun _ => true) [⟨2, true⟩]
              liveController).tablesInStickyZone = [] ∧
            liveController.scrollListenerAttached = true →
          (onIntersection (fun _ => true) [⟨2, true⟩]
            liveController).scrollRaf = 0)) :=
  ⟨by decide,
    onIntersection_gating (fun _ => true) [⟨2, true⟩] liveController
      (by decide)⟩

/-- C9: on a live controller, `destroy` is terminal: a second `destroy`
is a no-op on controller and document; the destroyed controller has
every pending frame cancelled, every observer and listener detached,
and both tracking collections empty; every freeze-table in the document
is left with no marker class on any of its cells; and a subsequent
`init` returns `false` leaving the controller unchanged, whatever the
success path would have done. -/
theorem destroy_terminal (c : Controller)
    (doc : List (Table × DomState)) (hc : c.isDestroyed = false) :
    destroy (destroy c doc).1 (destroy c doc).2 = destroy c doc ∧
      (destroy c doc).1.isDestroyed = true ∧
      (destroy c doc).1.isInitialized = false ∧
      (destroy c doc).1.refreshRaf = 0 ∧
      (destroy c doc).1.scrollRaf = 0 ∧
      (destroy c doc).1.mutationRaf = 0 ∧
      (destroy c doc).1.resizeObserver = false ∧
      (destroy c doc).1.intersectionObserver = false ∧
      (destroy c doc).1.mutationObserver = false ∧
      (destroy c doc).1.scrollListenerAttached = false ∧
      (destroy c doc).1.resizeListenerAttached = false ∧
      (destroy c doc).1.observedTables = [] ∧
      (destroy c doc).1.tablesInStickyZone = [] ∧
      (∀ p ∈ (destroy c doc).2, ∀ id ∈ tableCells p.1,
        ¬ hasMarker (p.2.styles id)) ∧
      (∀ proceed, init (destroy c doc).1 proceed =
        (false, (destroy c doc).1)) := by
  have hne : ¬ c.isDestroyed = true := by
    rw [hc]
    exact Bool.false_ne_true
  have hd : destroy c doc =
      ({ isDestroyed := true, isInitialized := false,
         refreshRaf := 0, scrollRaf := 0, mutationRaf := 0,
         resizeObserver := false, intersectionObserver := false,
         mutationObserver := false, observedTables := [],
         tablesInStickyZone := [], scrollListenerAttached := false,
         resizeListenerAttached := false },
       doc.map (fun p => (p.1, clearFreezeStyles p.1 p.2))) := by
    unfold destroy
    rw [if_neg hne]
  rw [hd]
  refine ⟨?_, rfl, rfl, rfl, rfl, rfl, rfl, rfl, rfl, rfl, rfl, rfl,
    rfl, ?_, ?_⟩
  · unfold destroy
    rw [if_pos rfl]
  · intro p hp id hid
    obtain ⟨q, _, rfl⟩ := List.mem_map.mp hp
    exact clearStyles_no_marker q.1 q.2.styles id hid
  · intro proceed
    unfold init
    rw [if_pos rfl]

theorem destroy_terminal_witness :
    departedController.isDestroyed = false ∧
      (destroy (destroy departedController [(staleLeftTable, staleDom)]).1
          (destroy departedController [(staleLeftTable, staleDom)]).2 =
        destroy departedController [(staleLeftTable, staleDom)] ∧
        (destroy departedController
          [(staleLeftTable, staleDom)]).1.isDestroyed = true ∧
        (destroy departedController
          [(staleLeftTable, staleDom)]).1.isInitialized = false ∧
        (destroy departedController
          [(staleLeftTable, staleDom)]).1.refreshRaf = 0 ∧
        (destroy departedController
          [(staleLeftTable, staleDom)]).1.scrollRaf = 0 ∧
        (destroy departedController
          [(staleLeftTable, staleDom)]).1.mutationRaf = 0 ∧
        (destroy departedController
          [(staleLeftTable, staleDom)]).1.resizeObserver = false ∧
        (destroy departedController
          [(staleLeftTable, staleDom)]).1.intersectionObserver =
          false ∧
        (destroy departedController
          [(staleLeftTable, staleDom)]).1.mutationObserver = false ∧
        (destroy departedController
          [(staleLeftTable, staleDom)]).1.scrollListenerAttached =
          false ∧
        (destroy departedController
          [(staleLeftTable, staleDom)]).1.resizeListenerAttached =
          false ∧
        (destroy departedController
          [(staleLeftTable, staleDom)]).1.observedTables = [] ∧
        (destroy departedController
          [(staleLeftTable, staleDom)]).1.tablesInStickyZone = [] ∧
        (∀ p ∈ (destroy departedController
            [(staleLeftTable, staleDom)]).2, ∀ id ∈ tableCells p.1,
          ¬ hasMarker (p.2.styles id)) ∧
        (∀ proceed, init (destroy departedController
            [(staleLeftTable, staleDom)]).1 proceed =
          (false, (destroy departedController
            [(staleLeftTable, staleDom)]).1))) :=
  ⟨by decide,
    destroy_terminal departedController [(staleLeftTable, staleDom)]
      (by decide)⟩

theorem handlePageScrollTable_eq (t : Table) (g : Geom)
    (d : DomState) :
    handlePageScrollTable t g d =
      if g.hasContainer = false then d
      else if t.thead = none ∧ t.tbody = none then d
      else if (g.containerTop ≤ g.stickyOffset ∧
          g.stickyOffset < g.containerBottom) ∧
          0 < getFreezeCount d.rowAttr then
        { d with
          styles :=
            (((t.thead.getD [] ++
                (t.tbody.getD []).take
                  (getFreezeCount d.rowAttr)).enum).foldl
              (fun (p : Styles × Int) rp =>
                (rp.2.foldl (fun σ (id : CellId) =>
                  if (σ id).position = "sticky" ∧ (σ id).top ≠ none then
                    updStyle σ id (fun st => { st with top := some p.2 })
                  else σ) p.1,
                  p.2 + g.rowHeights.getD rp.1 0))
              (d.styles, max 0 (g.stickyOffset - g.tableTop))).1 }
      else
        { d with
          styles :=
            applyRowFreeze t g (getFreezeCount d.rowAttr : Int)
              (getFreezeCount d.colAttr : Int) d.styles } := rfl

/-- C10: while the table's container is inside the sticky activation
band, the scroll path preserves every cell's inline `position`, `left`
and class list, leaves the table's attributes and background property
untouched, and leaves a cell's whole style unchanged unless its inline
position was `sticky` with a non-empty inline top (a cell previously
frozen by a full recompute). -/
theorem handlePageScroll_frame_effect (t : Table) (g : Geom)
    (d : DomState) (hcont : g.hasContainer = true)
    (hband : g.containerTop ≤ g.stickyOffset ∧
      g.stickyOffset < g.containerBottom) :
    (handlePageScrollTable t g d).colAttr = d.colAttr ∧
      (handlePageScrollTable t g d).rowAttr = d.rowAttr ∧
      (handlePageScrollTable t g d).freezeBg = d.freezeBg ∧
      ∀ id : CellId,
        ((handlePageScrollTable t g d).styles id).position =
            (d.styles id).position ∧
          ((handlePageScrollTable t g d).styles id).left =
            (d.styles id).left ∧
          ((handlePageScrollTable t g d).styles id).classes =
            (d.styles id).classes ∧
          (¬ ((d.styles id).position = "sticky" ∧
              (d.styles id).top ≠ none) →
            (handlePageScrollTable t g d).styles id = d.styles id) := by
  rw [handlePageScrollTable_eq]
  rw [if_neg (by simp [hcont])]
  by_cases hte : t.thead = none ∧ t.tbody = none
  · rw [if_pos hte]
    exact ⟨rfl, rfl, rfl, fun id => ⟨rfl, rfl, rfl, fun _ => rfl⟩⟩
  · rw [if_neg hte]
    by_cases hrf : 0 < getFreezeCount d.rowAttr
    · rw [if_pos ⟨hband, hrf⟩]
      refine ⟨rfl, rfl, rfl, fun id => ?_⟩
      have hrel := foldl_rel
        (fun p q : Styles × Int =>
          (q.1 id).position = (p.1 id).position ∧
            (q.1 id).left = (p.1 id).left ∧
            (q.1 id).classes = (p.1 id).classes ∧
            (¬ ((p.1 id).position = "sticky" ∧ (p.1 id).top ≠ none) →
              q.1 id = p.1 id))
        (fun (p : Styles × Int) rp =>
          (rp.2.foldl (fun σ (id : CellId) =>
            if (σ id).position = "sticky" ∧ (σ id).top ≠ none then
              updStyle σ id (fun st => { st with top := some p.2 })
            else σ) p.1,
            p.2 + g.rowHeights.getD rp.1 0))
        ((t.thead.getD [] ++
          (t.tbody.getD []).take (getFreezeCount d.rowAttr)).enum)
        (d.styles, max 0 (g.stickyOffset - g.tableTop))
        (fun x => ⟨rfl, rfl, rfl, fun _ => rfl⟩)
        ?_ ?_
      · exact hrel
      · rintro x y z ⟨h1, h2, h3, h4⟩ ⟨h5, h6, h7, h8⟩
        refine ⟨h5.trans h1, h6.trans h2, h7.trans h3, fun hnc => ?_⟩
        have hyx := h4 hnc
        rw [← hyx] at hnc
        exact (h8 hnc).trans hyx
      · intro p rp _
        refine foldl_rel
          (fun σ1 σ2 : Styles =>
            (σ2 id).position = (σ1 id).position ∧
              (σ2 id).left = (σ1 id).left ∧
              (σ2 id).classes = (σ1 id).classes ∧
              (¬ ((σ1 id).position = "sticky" ∧ (σ1 id).top ≠ none) →
                σ2 id = σ1 id))
          _ rp.2 p.1 (fun x => ⟨rfl, rfl, rfl, fun _ => rfl⟩) ?_ ?_
        · rintro x y z ⟨h1, h2, h3, h4⟩ ⟨h5, h6, h7, h8⟩
          refine ⟨h5.trans h1, h6.trans h2, h7.trans h3, fun hnc => ?_⟩
          have hyx := h4 hnc
          rw [← hyx] at hnc
          exact (h8 hnc).trans hyx
        · intro σ' a _
          by_cases hcond : (σ' a).position = "sticky" ∧ (σ' a).top ≠ none
          · rw [if_pos hcond]
            unfold updStyle
            by_cases he : id = a
            · rw [if_pos he]
              subst he
              exact ⟨rfl, rfl, rfl, fun hnc => absurd hcond hnc⟩
            · rw [if_neg he]
              exact ⟨rfl, rfl, rfl, fun _ => rfl⟩
          · rw [if_neg hcond]
            exact ⟨rfl, rfl, rfl, fun _ => rfl⟩
    · rw [if_neg (fun h => hrf h.2)]
      have h0 : applyRowFreeze t g (getFreezeCount d.rowAttr : Int)
          (getFreezeCount d.colAttr : Int) d.styles = d.styles := by
        rw [applyRowFreeze_eq, if_pos
          (show rowFreezeGuard t (getFreezeCount d.rowAttr : Int) from
            Or.inr (by omega))]
      rw [h0]
      exact ⟨rfl, rfl, rfl, fun id => ⟨rfl, rfl, rfl, fun _ => rfl⟩⟩

theorem handlePageScroll_frame_effect_witness :
    (g0.hasContainer = true ∧
      (g0.containerTop ≤ g0.stickyOffset ∧
        g0.stickyOffset < g0.containerBottom)) ∧
      ((handlePageScrollTable bothTable g0 bothDom).colAttr =
          bothDom.colAttr ∧
        (handlePageScrollTable bothTable g0 bothDom).rowAttr =
          bothDom.rowAttr ∧
        (handlePageScrollTable bothTable g0 bothDom).freezeBg =
          bothDom.freezeBg ∧
        ∀ id : CellId,
          ((handlePageScrollTable bothTable g0 bothDom).styles
              id).position = (bothDom.styles id).position ∧
            ((handlePageScrollTable bothTable g0 bothDom).styles
              id).left = (bothDom.styles id).left ∧
            ((handlePageScrollTable bothTable g0 bothDom).styles
              id).classes = (bothDom.styles id).classes ∧
            (¬ ((bothDom.styles id).position = "sticky" ∧
                (bothDom.styles id).top ≠ none) →
              (handlePageScrollTable bothTable g0 bothDom).styles id =
                bothDom.styles id)) :=
  ⟨⟨by decide, by decide⟩,
    handlePageScroll_frame_effect bothTable g0 bothDom (by decide)
      (by decide)⟩

end TableFreeze

